import Mathlib

/-!
# Verification of the BMW inventory temporal reconciliation core

This file gives a shallow embedding of `src/bmw/data_processor.py` (together
with the column sets of `src/bmw/config.py`) and proves properties of the
SCD-Type-2 merge (`merge_historical_data`), the change comparator
(`compare_records`), the equipment merger (`merge_equipment_history`) and the
scores merger (`merge_scores_history`).

Modelling conventions:
* A pandas DataFrame is a `List` of records, in row order.
* Dates (`scrape_date.date()`, `valid_from`, ...) are day ordinals (`Nat`);
  a nullable date column is `Option Nat` (`none` = `NaT`/missing).
* Nullable numeric columns are `Option Int` (`none` = `NaN`/`pd.NA`).
* A value of an object (string-like) column is `SVal`: either `missing`
  (a `NaN` cell) or an actual string.  Python's `str()` of a missing object
  cell yields the text `"nan"`, which `pyStr` reproduces.
* The `equipments` column holds a parsed JSON object
  (`List (String × List String)`, a dict in insertion order); `none` models a
  falsy or unparseable cell.  `str()` of such a cell is `pyStrEquips`.
* Pandas `==` between the `Int64` key column and a scalar propagates `NA` as
  `False` in the resulting row mask; `pandasKeyEq` reproduces that.
  Pandas `isin` matches `NA` to `NA`, which `List.contains` on `Option Nat`
  (via `BEq`) reproduces.
-/

/-- A cell of an object-dtype (string-like) pandas column: either a missing
value (`NaN`) or a string. -/
inductive SVal where
  | missing : SVal
  | val : String → SVal
deriving DecidableEq, Repr

/-- Python `str()` of an object cell: a missing cell (`float('nan')`) prints
as `"nan"`; a string prints as itself. -/
def pyStr : SVal → String
  | SVal.missing => "nan"
  | SVal.val s => s

/-- Python `str()` of the nullable-integer (`Int64`) key column: `pd.NA`
prints as `"<NA>"`. -/
def pyStrId : Option Nat → String
  | none => "<NA>"
  | some n => toString n

/-- Python `str()` of a nullable numeric cell. -/
def pyStrNum : Option Int → String
  | none => "nan"
  | some n => toString n

/-- A parsed `equipments` JSON object: categories in insertion order, each
with its list of equipment names. -/
abbrev EquipJson := List (String × List String)

/-- Python `str()` of one category entry of an equipments dict. -/
def pyStrEquipEntry (e : String × List String) : String :=
  "'" ++ e.1 ++ "': [" ++ String.intercalate ", " (e.2.map (fun n => "'" ++ n ++ "'")) ++ "]"

/-- Python `str()` of the `equipments` cell: missing prints as `"nan"`, a dict
prints in Python repr style. -/
def pyStrEquips : Option EquipJson → String
  | none => "nan"
  | some d => "\x7b" ++ String.intercalate ", " (d.map pyStrEquipEntry) ++ "\x7d"

/-- The tracked business fields of a car record (the columns listed in
`TRACKING_COLUMNS` of `config.py`). -/
structure Tracked where
  car_id : Option Nat
  model_name : SVal
  price : Option Int
  kilometers : Option Int
  registration_date : SVal
  horse_power_kw : Option Int
  horse_power_ps : Option Int
  battery_range_km : Option Int
  equipments : Option EquipJson
deriving DecidableEq, Repr

/-- A column name appearing in `TRACKING_COLUMNS`. -/
inductive TCol where
  | car_id | model_name | price | kilometers | registration_date
  | horse_power_kw | horse_power_ps | battery_range_km | equipments
deriving DecidableEq, Repr

/-- `TRACKING_COLUMNS` from `config.py`, in source order. -/
def TRACKING_COLUMNS : List TCol :=
  [TCol.car_id, TCol.model_name, TCol.price, TCol.kilometers, TCol.registration_date,
   TCol.horse_power_kw, TCol.horse_power_ps, TCol.battery_range_km, TCol.equipments]

/-- The columns treated numerically by `compare_records` (the literal list on
line 38 of `data_processor.py`). -/
def numericTrackedCols : List TCol :=
  [TCol.price, TCol.kilometers, TCol.horse_power_kw, TCol.horse_power_ps, TCol.battery_range_km]

/-- `record[col] if pd.notna(record[col]) else None` for a numeric tracked
column: the cell as an `Option Int` (`none` identifies `NaN` and `None`). -/
def numVal (t : Tracked) : TCol → Option Int
  | TCol.price => t.price
  | TCol.kilometers => t.kilometers
  | TCol.horse_power_kw => t.horse_power_kw
  | TCol.horse_power_ps => t.horse_power_ps
  | TCol.battery_range_km => t.battery_range_km
  | _ => none

/-- `str(record[col])` for a tracked column. -/
def strVal (t : Tracked) : TCol → String
  | TCol.car_id => pyStrId t.car_id
  | TCol.model_name => pyStr t.model_name
  | TCol.price => pyStrNum t.price
  | TCol.kilometers => pyStrNum t.kilometers
  | TCol.registration_date => pyStr t.registration_date
  | TCol.horse_power_kw => pyStrNum t.horse_power_kw
  | TCol.horse_power_ps => pyStrNum t.horse_power_ps
  | TCol.battery_range_km => pyStrNum t.battery_range_km
  | TCol.equipments => pyStrEquips t.equipments

/-- The body of the loop of `compare_records` for one column: numeric columns
compare the `notna`-normalised values with Python `!=` (where
`None != None` is `False`), all other columns compare `str()` images. -/
def colChanged (old_record new_record : Tracked) (col : TCol) : Bool :=
  if numericTrackedCols.contains col then
    numVal old_record col != numVal new_record col
  else
    strVal old_record col != strVal new_record col

/-- `compare_records(old_record, new_record, tracking_cols)`
(`data_processor.py` lines 35-46): `True` as soon as one tracked column
differs, else `False`. -/
def compare_records (old_record new_record : Tracked) (tracking_cols : List TCol) : Bool :=
  tracking_cols.any (colChanged old_record new_record)

/-- A row of the snapshot DataFrame handed to `merge_historical_data`
(`df_tracking = df[TRACKING_COLUMNS + ['link']]` in `main.py`). -/
structure SnapRow extends Tracked where
  link : SVal
deriving DecidableEq, Repr

/-- A row of the car history table (`HISTORY_COLUMNS` of `config.py`). -/
structure CarRow extends Tracked where
  first_seen_date : Option Nat
  last_seen_date : Option Nat
  valid_from : Option Nat
  valid_to : Option Nat
  is_latest : Bool
  status : String
  link : SVal
  scrape_date : Option Nat
deriving DecidableEq, Repr

/-- `get_latest_records(history_df)`: the `is_latest == True` partition.
(The `history_df.empty` early return yields the same empty table.) -/
def get_latest_records (history_df : List CarRow) : List CarRow :=
  history_df.filter (fun r => r.is_latest)

/-- The pandas mask `series == car_id` on the `Int64` key column, evaluated at
one row: `NA` on either side propagates and masks the row out (`false`). -/
def pandasKeyEq (a b : Option Nat) : Bool :=
  match a, b with
  | some x, some y => x == y
  | _, _ => false

/-- The `[NEW]` branch of `merge_historical_data` (lines 73-86):
`row.to_dict()` updated with the fresh SCD bookkeeping fields. -/
def new_car_row (s : SnapRow) (d : Nat) : CarRow :=
  { toTracked := s.toTracked
    first_seen_date := some d
    last_seen_date := some d
    valid_from := some d
    valid_to := none
    is_latest := true
    status := "active"
    link := s.link
    scrape_date := some d }

/-- The closing copy of the `[CHANGED]` branch (lines 94-100): the old latest
row with `valid_to = today` and `is_latest = False`; every other field,
including `status`, is kept. -/
def close_row (old_row : CarRow) (d : Nat) : CarRow :=
  { old_row with valid_to := some d, is_latest := false }

/-- The new open row of the `[CHANGED]` branch (lines 102-112). -/
def changed_new_row (s : SnapRow) (old_record : CarRow) (d : Nat) : CarRow :=
  { toTracked := s.toTracked
    first_seen_date := old_record.first_seen_date
    last_seen_date := some d
    valid_from := some d
    valid_to := none
    is_latest := true
    status := "active"
    link := s.link
    scrape_date := some d }

/-- The `[UNCHANGED]` branch (lines 113-119): the old latest row with
`last_seen_date` and `scrape_date` re-stamped. -/
def restamp_row (old_record : CarRow) (d : Nat) : CarRow :=
  { old_record with last_seen_date := some d, scrape_date := some d }

/-- The `[SOLD/REMOVED]` closing copy (lines 131-135). -/
def sold_row (old_record : CarRow) (d : Nat) : CarRow :=
  { old_record with valid_to := some d, is_latest := false, status := "sold" }

/-- One iteration of the snapshot loop of `merge_historical_data`
(lines 67-119).  The inner `none` arm of the changed branch is unreachable:
the matching latest row always lies in `history_df` (see
`processSnapRow_changed`); it closes the same row found in `latest_df`,
mirroring that the two lookups of the source select the same row. -/
def processSnapRow (history_df : List CarRow) (d : Nat) (s : SnapRow) : List CarRow :=
  let latest_df := get_latest_records history_df
  match latest_df.find? (fun r => pandasKeyEq r.car_id s.car_id) with
  | none => [new_car_row s d]
  | some old_record =>
    if compare_records old_record.toTracked s.toTracked TRACKING_COLUMNS then
      match (history_df.filter (fun r => pandasKeyEq r.car_id s.car_id && r.is_latest)).head? with
      | some old_row => [close_row old_row d, changed_new_row s old_record d]
      | none => [close_row old_record d, changed_new_row s old_record d]
    else
      [restamp_row old_record d]

/-- The whole snapshot loop, in row order. -/
def processAll (history_df : List CarRow) (d : Nat) : List SnapRow → List CarRow
  | [] => []
  | s :: rest => processSnapRow history_df d s ++ processAll history_df d rest

/-- The `disappeared_cars` pass (lines 121-135): latest rows whose key is not
among the processed snapshot keys and whose status is `active`, each closed as
`sold`.  (The `latest_df.empty` guard is a no-op on the empty list.) -/
def disappeared_rows (history_df : List CarRow) (current_data : List SnapRow) (d : Nat) :
    List CarRow :=
  let processed_ids := current_data.map (fun s => s.car_id)
  ((get_latest_records history_df).filter
      (fun r => !(processed_ids.contains r.car_id) && r.status == "active")).map
    (fun r => sold_row r d)

/-- All rows emitted by the current run, in emission order. -/
def new_records (current_data : List SnapRow) (history_df : List CarRow) (d : Nat) :
    List CarRow :=
  processAll history_df d current_data ++ disappeared_rows history_df current_data d

/-- The `old_history` selection (lines 137-140): previously-closed rows whose
`valid_to` parses to a date strictly before today; a `NaT` comparison is
`False`, so closed rows without a `valid_to` are dropped too.  (The
`history_df.empty` guard yields the same empty table.) -/
def old_history (history_df : List CarRow) (d : Nat) : List CarRow :=
  history_df.filter
    (fun r => r.is_latest == false &&
      (match r.valid_to with
       | some t => decide (t < d)
       | none => false))

/-- `merge_historical_data(current_data, history_df, scrape_date)`
(lines 49-153), with `d = scrape_date.date()` as a day ordinal:
the filtered old history concatenated with this run's emissions. -/
def merge_historical_data (current_data : List SnapRow) (history_df : List CarRow) (d : Nat) :
    List CarRow :=
  old_history history_df d ++ new_records current_data history_df d

/-- Run a list of reconciliations in order, starting from `h`. -/
def mergeRunsFrom (h : List CarRow) : List (List SnapRow × Nat) → List CarRow
  | [] => h
  | (s, d) :: rest => mergeRunsFrom (merge_historical_data s h d) rest

/-- A sequence of reconciliation runs: each run merges its snapshot into the
history produced so far, starting from the empty history (the lifecycle of
§3 of the spec: all streams start empty on first run). -/
def mergeRuns (runs : List (List SnapRow × Nat)) : List CarRow :=
  mergeRunsFrom [] runs

/-! ## Equipment stream (`EQUIPMENT_COLUMNS`) -/

/-- A row of the equipment history table (`EQUIPMENT_COLUMNS` of `config.py`).
`valid_from` and `scrape_date` are always materialised by the merger (missing
stamps are defaulted to today), hence plain `Nat`. -/
structure EquipRow where
  car_id : Option Nat
  category : String
  equipment_name : String
  valid_from : Nat
  valid_to : Option Nat
  is_latest : Bool
  scrape_date : Nat
deriving DecidableEq, Repr

/-- The inner loop of `extract_equipment_from_json` over one category's
equipment list, threading the `seen` set (first occurrence of a
`(category, name)` pair wins, later duplicates are skipped).  Returns the
grown `seen` set and the records appended for this category. -/
def extractNames (car_id : Option Nat) (valid_from : Nat) (valid_to : Option Nat)
    (is_latest : Bool) (scrape_date : Nat) (category : String) :
    List String → List (String × String) → List (String × String) × List EquipRow
  | [], seen => (seen, [])
  | n :: ns, seen =>
    if seen.contains (category, n) then
      extractNames car_id valid_from valid_to is_latest scrape_date category ns seen
    else
      let p := extractNames car_id valid_from valid_to is_latest scrape_date category ns
        ((category, n) :: seen)
      (p.1,
        { car_id := car_id, category := category, equipment_name := n,
          valid_from := valid_from, valid_to := valid_to, is_latest := is_latest,
          scrape_date := scrape_date } :: p.2)

/-- The outer loop of `extract_equipment_from_json` over the categories of the
equipments dict.  (A falsy/`null` equipment list iterates zero times, which an
empty list models.) -/
def extractCats (car_id : Option Nat) (valid_from : Nat) (valid_to : Option Nat)
    (is_latest : Bool) (scrape_date : Nat) :
    EquipJson → List (String × String) → List EquipRow
  | [], _ => []
  | (category, names) :: rest, seen =>
    let p := extractNames car_id valid_from valid_to is_latest scrape_date category names seen
    p.2 ++ extractCats car_id valid_from valid_to is_latest scrape_date rest p.1

/-- `extract_equipment_from_json` (`data_processor.py` lines 172-207) on the
parsed form of its input: `none` stands for a falsy `equipments_json` or one
whose parse raised (both produce no records). -/
def extract_equipment_from_json (car_id : Option Nat) (equipments_json : Option EquipJson)
    (valid_from : Nat) (valid_to : Option Nat) (is_latest : Bool) (scrape_date : Nat) :
    List EquipRow :=
  match equipments_json with
  | none => []
  | some equipment_data =>
    extractCats car_id valid_from valid_to is_latest scrape_date equipment_data []

/-- Pandas `drop_duplicates(subset=key, keep='last')`: keeps, in place, each
row no later row shares a key with. -/
def dedupKeepLast {α : Type} {κ : Type} [DecidableEq κ] (key : α → κ) : List α → List α
  | [] => []
  | a :: rest =>
    if rest.any (fun b => decide (key b = key a)) then dedupKeepLast key rest
    else a :: dedupKeepLast key rest

/-- The de-duplication key of the equipment batch (`subset=['car_id',
'category', 'equipment_name']`). -/
def equipKey (r : EquipRow) : Option Nat × String × String :=
  (r.car_id, r.category, r.equipment_name)

/-- The per-car body of the loop of `merge_equipment_history` (lines
222-256): skip rows with a missing key, default missing stamps to today, and
extract the equipment records. -/
def equip_rows_for_car (car_row : CarRow) (d : Nat) : List EquipRow :=
  if car_row.car_id.isNone then []
  else
    extract_equipment_from_json car_row.car_id car_row.equipments
      (car_row.valid_from.getD d) car_row.valid_to car_row.is_latest
      (car_row.scrape_date.getD d)

/-- The per-car loop of `merge_equipment_history` over the latest partition,
in iteration order. -/
def gatherEquip (d : Nat) : List CarRow → List EquipRow
  | [] => []
  | c :: cs => equip_rows_for_car c d ++ gatherEquip d cs

/-- The full new-records batch of `merge_equipment_history`, before
de-duplication. -/
def new_equipment_records (car_history_df : List CarRow) (d : Nat) : List EquipRow :=
  gatherEquip d (get_latest_records car_history_df)

/-- `merge_equipment_history(car_history_df, equipment_history_df,
scrape_date)` (lines 210-280): extract equipment for every latest car row,
de-duplicate the batch by `(car_id, category, equipment_name)` keeping the
last occurrence, and append it to the existing equipment history. -/
def merge_equipment_history (car_history_df : List CarRow)
    (equipment_history_df : List EquipRow) (d : Nat) : List EquipRow :=
  let new_equipment := new_equipment_records car_history_df d
  if new_equipment.isEmpty then equipment_history_df
  else equipment_history_df ++ dedupKeepLast equipKey new_equipment

/-! ## Scores stream (`SCORES_COLUMNS`) -/

/-- A row of the car history table after `main.py` left-joins the five score
columns onto it (`merged_history_with_scores`); only the fields
`merge_scores_history` reads are carried. -/
structure ScoredCarRow where
  car_id : Option Nat
  value_efficiency_score : Option Int
  age_usage_score : Option Int
  performance_range_score : Option Int
  equipment_score : Option Int
  final_score : Option Int
  valid_from : Option Nat
  valid_to : Option Nat
  is_latest : Bool
  scrape_date : Option Nat
deriving DecidableEq, Repr

/-- A row of the scores history table (`SCORES_COLUMNS` of `config.py`). -/
structure ScoreRow where
  car_id : Option Nat
  value_efficiency_score : Option Int
  age_usage_score : Option Int
  performance_range_score : Option Int
  equipment_score : Option Int
  final_score : Option Int
  valid_from : Nat
  valid_to : Option Nat
  is_latest : Bool
  scrape_date : Nat
deriving DecidableEq, Repr

/-- The per-car body of the loop of `merge_scores_history` (lines 311-359):
skip rows with a missing key; build a score record only when at least one of
the five scores is non-null (each null score is stored as an explicit null);
default missing stamps to today. -/
def score_record_for_car (car_row : ScoredCarRow) (d : Nat) : Option ScoreRow :=
  if car_row.car_id.isNone then none
  else if car_row.value_efficiency_score.isSome || car_row.age_usage_score.isSome ||
      car_row.performance_range_score.isSome || car_row.equipment_score.isSome ||
      car_row.final_score.isSome then
    some { car_id := car_row.car_id
           value_efficiency_score := car_row.value_efficiency_score
           age_usage_score := car_row.age_usage_score
           performance_range_score := car_row.performance_range_score
           equipment_score := car_row.equipment_score
           final_score := car_row.final_score
           valid_from := car_row.valid_from.getD d
           valid_to := car_row.valid_to
           is_latest := car_row.is_latest
           scrape_date := car_row.scrape_date.getD d }
  else none

/-- The metric row `merge_scores_history` appends for one latest car row:
each score field is stored verbatim (nulls stay null), the validity window is
the car's own, and missing stamps default to the run date. -/
def mkScoreRow (c : ScoredCarRow) (d : Nat) : ScoreRow :=
  { car_id := c.car_id
    value_efficiency_score := c.value_efficiency_score
    age_usage_score := c.age_usage_score
    performance_range_score := c.performance_range_score
    equipment_score := c.equipment_score
    final_score := c.final_score
    valid_from := c.valid_from.getD d
    valid_to := c.valid_to
    is_latest := c.is_latest
    scrape_date := c.scrape_date.getD d }

/-- The full new-records batch of `merge_scores_history`, before
de-duplication. -/
def new_scores_records (car_history_df : List ScoredCarRow) (d : Nat) : List ScoreRow :=
  (car_history_df.filter (fun r => r.is_latest)).filterMap
    (fun car_row => score_record_for_car car_row d)

/-- `merge_scores_history(car_history_df, scores_history_df, scrape_date)`
(lines 299-382): one candidate score row per latest car, de-duplicated by
`car_id` keeping the last occurrence, appended to the existing history. -/
def merge_scores_history (car_history_df : List ScoredCarRow)
    (scores_history_df : List ScoreRow) (d : Nat) : List ScoreRow :=
  let new_scores := new_scores_records car_history_df d
  if new_scores.isEmpty then scores_history_df
  else scores_history_df ++ dedupKeepLast (fun r => r.car_id) new_scores

/-! ## Proof-layer definitions -/

/-- The single `is_latest = True` row that one snapshot-loop iteration emits
(`processSnapRow` also emits a closing copy in the changed branch, which is
not latest). -/
def latestEmit (history_df : List CarRow) (d : Nat) (s : SnapRow) : CarRow :=
  match (get_latest_records history_df).find? (fun r => pandasKeyEq r.car_id s.car_id) with
  | none => new_car_row s d
  | some old_record =>
    if compare_records old_record.toTracked s.toTracked TRACKING_COLUMNS then
      changed_new_row s old_record d
    else
      restamp_row old_record d

/-- Per key, at most one `is_latest = True` row: the latest partition's key
column is duplicate-free. -/
def uniqueLatestKeys (h : List CarRow) : Prop :=
  ((h.filter (fun r => r.is_latest)).map (fun r => r.car_id)).Nodup

/-- Every closed row carries a materialised validity interval
`valid_from < valid_to ≤ dmax`. -/
def closedSound (dmax : Nat) (h : List CarRow) : Prop :=
  ∀ r ∈ h, r.is_latest = false →
    ∃ vf vt, r.valid_from = some vf ∧ r.valid_to = some vt ∧ vf < vt ∧ vt ≤ dmax

/-- Every latest row has a materialised `valid_from ≤ dmax`. -/
def latestSound (dmax : Nat) (h : List CarRow) : Prop :=
  ∀ r ∈ h, r.is_latest = true → ∃ vf, r.valid_from = some vf ∧ vf ≤ dmax

/-- The inductive invariant of the history store, relative to the date of the
last run. -/
def histInv (dmax : Nat) (h : List CarRow) : Prop :=
  uniqueLatestKeys h ∧ closedSound dmax h ∧ latestSound dmax h

/-- Run dates of a run sequence. -/
def runDates (runs : List (List SnapRow × Nat)) : List Nat :=
  runs.map (fun p => p.2)

/-- Every snapshot of the sequence has pairwise-distinct, non-missing keys
(the caller contract of §4.2: keys unique within one snapshot). -/
abbrev snapshotsWellKeyed (runs : List (List SnapRow × Nat)) : Prop :=
  ∀ p ∈ runs, ((p.1.map (fun s => s.car_id)).Nodup ∧ ∀ s ∈ p.1, s.car_id.isSome)


/-! ## Concrete example data -/

/-- A fully-populated tracked record used by the concrete examples. -/
def exTracked : Tracked :=
  { car_id := some 1, model_name := SVal.val "i4 eDrive40", price := some 50000,
    kilometers := some 1000, registration_date := SVal.val "2025-01",
    horse_power_kw := some 250, horse_power_ps := some 340,
    battery_range_km := some 500, equipments := none }

/-- A snapshot row for car 1 at price 50000. -/
def exSnap1 : SnapRow := { toTracked := exTracked, link := SVal.val "url-1" }

/-- The same car with a changed price. -/
def exSnap2 : SnapRow :=
  { toTracked := { exTracked with price := some 52000 }, link := SVal.val "url-1" }

/-- A snapshot row for a second car. -/
def exSnap3 : SnapRow :=
  { toTracked := { exTracked with car_id := some 2 }, link := SVal.val "url-2" }

/-- A previously-closed history row whose `valid_to` equals the day of the
next run (day 5). -/
def exClosedRow : CarRow :=
  { toTracked := exTracked, first_seen_date := some 4, last_seen_date := some 5,
    valid_from := some 4, valid_to := some 5, is_latest := false,
    status := "active", link := SVal.val "url-1", scrape_date := some 5 }

/-- A latest-partition row of the scores input whose five scores are all
null. -/
def exScoredNull : ScoredCarRow :=
  { car_id := some 1, value_efficiency_score := none, age_usage_score := none,
    performance_range_score := none, equipment_score := none, final_score := none,
    valid_from := some 5, valid_to := none, is_latest := true, scrape_date := some 5 }

/-- An equipments dict listing the same `(category, name)` pair twice. -/
def exEquipJson : EquipJson :=
  [("Comfort", ["Seat heating", "Seat heating"]), ("Safety", ["Lane assist"])]

/-- A latest history row carrying `exEquipJson`. -/
def exEquipCar : CarRow :=
  { toTracked := { exTracked with equipments := some exEquipJson },
    first_seen_date := some 5, last_seen_date := some 5, valid_from := some 5,
    valid_to := none, is_latest := true, status := "active",
    link := SVal.val "url-1", scrape_date := some 5 }

/-! ## General list lemmas -/

theorem head?_filter_eq_find? {α : Type} (p : α → Bool) (l : List α) :
    (l.filter p).head? = l.find? p := by
  induction l with
  | nil => rfl
  | cons a t ih => by_cases h : p a <;> simp [List.filter_cons, List.find?_cons, h, ih]

theorem find?_filter_and {α : Type} (p q : α → Bool) (l : List α) :
    (l.filter p).find? q = l.find? (fun a => p a && q a) := by
  induction l with
  | nil => rfl
  | cons a t ih =>
    by_cases hp : p a
    · by_cases hq : q a <;> simp [List.filter_cons, List.find?_cons, hp, hq, ih]
    · simp [List.filter_cons, List.find?_cons, hp, ih]

theorem find?_congr_pred {α : Type} (p q : α → Bool) (l : List α)
    (h : ∀ a ∈ l, p a = q a) : l.find? p = l.find? q := by
  induction l with
  | nil => rfl
  | cons a t ih =>
    have ha := h a (List.mem_cons_self a t)
    by_cases hp : p a
    · simp [List.find?_cons, hp, ha ▸ hp]
    · have hq : q a = false := by rw [← ha]; simpa using hp
      have hp' : p a = false := by simpa using hp
      simp only [List.find?_cons, hp', hq]
      exact ih (fun b hb => h b (List.mem_cons_of_mem a hb))

theorem countP_partition_length {α : Type} (p : α → Bool) (l : List α) :
    l.countP p + l.countP (fun a => !p a) = l.length := by
  induction l with
  | nil => rfl
  | cons a t ih => by_cases h : p a <;> simp [List.countP_cons, h, ← ih] <;> omega

/-! ## Comparator lemmas -/

theorem colChanged_refl (t : Tracked) (c : TCol) : colChanged t t c = false := by
  unfold colChanged
  by_cases h : numericTrackedCols.contains c <;> simp [h]

theorem compare_records_refl (t : Tracked) (cols : List TCol) :
    compare_records t t cols = false := by
  unfold compare_records
  simp [List.any_eq_false]
  intro c _
  exact colChanged_refl t c

theorem pandasKeyEq_some {a b : Option Nat} (h : pandasKeyEq a b = true) :
    ∃ k, a = some k ∧ b = some k := by
  match a, b with
  | some x, some y =>
    simp only [pandasKeyEq, beq_iff_eq] at h
    exact ⟨y, by rw [h], rfl⟩
  | some x, none => simp [pandasKeyEq] at h
  | none, _ => simp [pandasKeyEq] at h

theorem pandasKeyEq_eq {a b : Option Nat} (h : pandasKeyEq a b = true) : a = b := by
  obtain ⟨k, h1, h2⟩ := pandasKeyEq_some h
  rw [h1, h2]

theorem pandasKeyEq_self {k : Nat} : pandasKeyEq (some k) (some k) = true := by
  simp [pandasKeyEq]


/-! ## Characterisation of one snapshot-loop iteration -/

theorem latest_find?_eq (history_df : List CarRow) (s : SnapRow) :
    (get_latest_records history_df).find? (fun r => pandasKeyEq r.car_id s.car_id) =
      history_df.find? (fun r => pandasKeyEq r.car_id s.car_id && r.is_latest) := by
  unfold get_latest_records
  rw [find?_filter_and]
  exact find?_congr_pred _ _ _
    (fun r _ => Bool.and_comm r.is_latest (pandasKeyEq r.car_id s.car_id))

theorem processSnapRow_new (history_df : List CarRow) (d : Nat) (s : SnapRow)
    (h : (get_latest_records history_df).find? (fun r => pandasKeyEq r.car_id s.car_id) = none) :
    processSnapRow history_df d s = [new_car_row s d] := by
  simp only [processSnapRow]
  rw [h]

theorem processSnapRow_changed (history_df : List CarRow) (d : Nat) (s : SnapRow)
    (old_record : CarRow)
    (h : (get_latest_records history_df).find? (fun r => pandasKeyEq r.car_id s.car_id) =
      some old_record)
    (hc : compare_records old_record.toTracked s.toTracked TRACKING_COLUMNS = true) :
    processSnapRow history_df d s = [close_row old_record d, changed_new_row s old_record d] := by
  simp only [processSnapRow]
  rw [h]
  simp only [hc, if_true]
  rw [head?_filter_eq_find?, ← latest_find?_eq, h]

theorem processSnapRow_unchanged (history_df : List CarRow) (d : Nat) (s : SnapRow)
    (old_record : CarRow)
    (h : (get_latest_records history_df).find? (fun r => pandasKeyEq r.car_id s.car_id) =
      some old_record)
    (hc : compare_records old_record.toTracked s.toTracked TRACKING_COLUMNS = false) :
    processSnapRow history_df d s = [restamp_row old_record d] := by
  simp only [processSnapRow]
  rw [h]
  simp [hc]

theorem found_latest_key {history_df : List CarRow} {s : SnapRow} {old_record : CarRow}
    (h : (get_latest_records history_df).find? (fun r => pandasKeyEq r.car_id s.car_id) =
      some old_record) :
    old_record.car_id = s.car_id := by
  have hp : pandasKeyEq old_record.car_id s.car_id = true := by
    simpa using List.find?_some h
  exact pandasKeyEq_eq hp

theorem found_latest_is_latest {history_df : List CarRow} {s : SnapRow} {old_record : CarRow}
    (h : (get_latest_records history_df).find? (fun r => pandasKeyEq r.car_id s.car_id) =
      some old_record) :
    old_record.is_latest = true := by
  have hm := List.mem_of_find?_eq_some h
  unfold get_latest_records at hm
  exact (List.mem_filter.mp hm).2

theorem found_latest_mem {history_df : List CarRow} {s : SnapRow} {old_record : CarRow}
    (h : (get_latest_records history_df).find? (fun r => pandasKeyEq r.car_id s.car_id) =
      some old_record) :
    old_record ∈ history_df := by
  have hm := List.mem_of_find?_eq_some h
  unfold get_latest_records at hm
  exact (List.mem_filter.mp hm).1

theorem processSnapRow_filter_latest (history_df : List CarRow) (d : Nat) (s : SnapRow) :
    (processSnapRow history_df d s).filter (fun r => r.is_latest) =
      [latestEmit history_df d s] := by
  unfold latestEmit
  rcases hf : (get_latest_records history_df).find? (fun r => pandasKeyEq r.car_id s.car_id) with
    _ | old_record
  · rw [processSnapRow_new history_df d s hf, hf]
    simp [new_car_row]
  · rcases hc : compare_records old_record.toTracked s.toTracked TRACKING_COLUMNS with _ | _
    · rw [processSnapRow_unchanged history_df d s old_record hf hc, hf]
      simp [hc, restamp_row, found_latest_is_latest hf]
    · rw [processSnapRow_changed history_df d s old_record hf hc, hf]
      simp [hc, close_row, changed_new_row]

theorem latestEmit_is_latest (history_df : List CarRow) (d : Nat) (s : SnapRow) :
    (latestEmit history_df d s).is_latest = true := by
  unfold latestEmit
  rcases hf : (get_latest_records history_df).find? (fun r => pandasKeyEq r.car_id s.car_id) with
    _ | old_record
  · rw [hf]
    simp [new_car_row]
  · rcases hc : compare_records old_record.toTracked s.toTracked TRACKING_COLUMNS with _ | _
    · rw [hf]
      simp [hc, restamp_row, found_latest_is_latest hf]
    · rw [hf]
      simp [hc, changed_new_row]

theorem latestEmit_car_id (history_df : List CarRow) (d : Nat) (s : SnapRow) :
    (latestEmit history_df d s).car_id = s.car_id := by
  unfold latestEmit
  rcases hf : (get_latest_records history_df).find? (fun r => pandasKeyEq r.car_id s.car_id) with
    _ | old_record
  · rw [hf]
    simp [new_car_row]
  · rcases hc : compare_records old_record.toTracked s.toTracked TRACKING_COLUMNS with _ | _
    · rw [hf]
      simpa [hc, restamp_row] using found_latest_key hf
    · rw [hf]
      simp [hc, changed_new_row]

theorem latestEmit_compare (history_df : List CarRow) (d : Nat) (s : SnapRow) :
    compare_records (latestEmit history_df d s).toTracked s.toTracked TRACKING_COLUMNS =
      false := by
  unfold latestEmit
  rcases hf : (get_latest_records history_df).find? (fun r => pandasKeyEq r.car_id s.car_id) with
    _ | old_record
  · rw [hf]
    simpa [new_car_row] using compare_records_refl s.toTracked TRACKING_COLUMNS
  · rcases hc : compare_records old_record.toTracked s.toTracked TRACKING_COLUMNS with _ | _
    · rw [hf]
      simp [hc, restamp_row]
    · rw [hf]
      simpa [hc, changed_new_row] using compare_records_refl s.toTracked TRACKING_COLUMNS

theorem processSnapRow_car_id (history_df : List CarRow) (d : Nat) (s : SnapRow) :
    ∀ r ∈ processSnapRow history_df d s, r.car_id = s.car_id := by
  intro r hr
  rcases hf : (get_latest_records history_df).find? (fun r => pandasKeyEq r.car_id s.car_id) with
    _ | old_record
  · rw [processSnapRow_new history_df d s hf] at hr
    simp at hr
    simp [hr, new_car_row]
  · rcases hc : compare_records old_record.toTracked s.toTracked TRACKING_COLUMNS with _ | _
    · rw [processSnapRow_unchanged history_df d s old_record hf hc] at hr
      simp at hr
      simpa [hr, restamp_row] using found_latest_key hf
    · rw [processSnapRow_changed history_df d s old_record hf hc] at hr
      simp at hr
      rcases hr with hr | hr
      · simpa [hr, close_row] using found_latest_key hf
      · simp [hr, changed_new_row]

theorem processSnapRow_length_pos (history_df : List CarRow) (d : Nat) (s : SnapRow) :
    1 ≤ (processSnapRow history_df d s).length := by
  rcases hf : (get_latest_records history_df).find? (fun r => pandasKeyEq r.car_id s.car_id) with
    _ | old_record
  · rw [processSnapRow_new history_df d s hf]; simp
  · rcases hc : compare_records old_record.toTracked s.toTracked TRACKING_COLUMNS with _ | _
    · rw [processSnapRow_unchanged history_df d s old_record hf hc]; simp
    · rw [processSnapRow_changed history_df d s old_record hf hc]; simp

/-! ## The emissions of a whole run -/

theorem processAll_filter_latest (history_df : List CarRow) (d : Nat) (S : List SnapRow) :
    (processAll history_df d S).filter (fun r => r.is_latest) =
      S.map (latestEmit history_df d) := by
  induction S with
  | nil => rfl
  | cons s rest ih =>
    simp only [processAll, List.filter_append, List.map_cons, ih,
      processSnapRow_filter_latest]
    rfl

theorem processAll_mem {history_df : List CarRow} {d : Nat} {S : List SnapRow} {r : CarRow} :
    r ∈ processAll history_df d S ↔ ∃ s ∈ S, r ∈ processSnapRow history_df d s := by
  induction S with
  | nil => simp [processAll]
  | cons s rest ih => simp [processAll, ih]

theorem processAll_length_ge (history_df : List CarRow) (d : Nat) (S : List SnapRow) :
    S.length ≤ (processAll history_df d S).length := by
  induction S with
  | nil => simp [processAll]
  | cons s rest ih =>
    simp only [processAll, List.length_append, List.length_cons]
    have := processSnapRow_length_pos history_df d s
    omega

theorem old_history_mem {history_df : List CarRow} {d : Nat} {r : CarRow} :
    r ∈ old_history history_df d ↔
      r ∈ history_df ∧ r.is_latest = false ∧ ∃ t, r.valid_to = some t ∧ t < d := by
  unfold old_history
  rw [List.mem_filter]
  constructor
  · rintro ⟨hm, hcond⟩
    simp only [Bool.and_eq_true, beq_iff_eq] at hcond
    obtain ⟨hlat, hvt⟩ := hcond
    rcases hvt' : r.valid_to with _ | t
    · rw [hvt'] at hvt; simp at hvt
    · rw [hvt'] at hvt
      simp only [decide_eq_true_eq] at hvt
      exact ⟨hm, hlat, t, rfl, hvt⟩
  · rintro ⟨hm, hlat, t, hvt, hlt⟩
    refine ⟨hm, ?_⟩
    simp [hlat, hvt, hlt]

theorem old_history_filter_latest (history_df : List CarRow) (d : Nat) :
    (old_history history_df d).filter (fun r => r.is_latest) = [] := by
  rw [List.filter_eq_nil_iff]
  intro r hr
  have := (old_history_mem.mp hr).2.1
  simp [this]

theorem disappeared_mem {history_df : List CarRow} {S : List SnapRow} {d : Nat} {r : CarRow} :
    r ∈ disappeared_rows history_df S d ↔
      ∃ r0, r0 ∈ history_df ∧ r0.is_latest = true ∧
        (S.map (fun s => s.car_id)).contains r0.car_id = false ∧ r0.status = "active" ∧
        r = sold_row r0 d := by
  unfold disappeared_rows get_latest_records
  simp only [List.mem_map, List.mem_filter, Bool.and_eq_true, Bool.not_eq_eq_eq_not,
    Bool.not_true, beq_iff_eq]
  constructor
  · rintro ⟨r0, ⟨⟨hm, hlat⟩, hni, hact⟩, rfl⟩
    exact ⟨r0, hm, hlat, hni, hact, rfl⟩
  · rintro ⟨r0, hm, hlat, hni, hact, rfl⟩
    exact ⟨r0, ⟨⟨hm, hlat⟩, hni, hact⟩, rfl⟩

theorem disappeared_filter_latest (history_df : List CarRow) (S : List SnapRow) (d : Nat) :
    (disappeared_rows history_df S d).filter (fun r => r.is_latest) = [] := by
  rw [List.filter_eq_nil_iff]
  intro r hr
  obtain ⟨r0, _, _, _, _, rfl⟩ := disappeared_mem.mp hr
  simp [sold_row]

theorem merge_filter_latest (S : List SnapRow) (history_df : List CarRow) (d : Nat) :
    (merge_historical_data S history_df d).filter (fun r => r.is_latest) =
      S.map (latestEmit history_df d) := by
  unfold merge_historical_data new_records
  rw [List.filter_append, List.filter_append, old_history_filter_latest,
    disappeared_filter_latest, processAll_filter_latest]
  simp

/-- Every closed row of a merge result has a materialised `valid_to ≤ d`
(strictly before `d` for passed-through rows, equal to `d` for rows closed by
this run). -/
theorem merge_closed_valid_to {S : List SnapRow} {history_df : List CarRow} {d : Nat}
    {r : CarRow} (hr : r ∈ merge_historical_data S history_df d)
    (hlat : r.is_latest = false) : ∃ t, r.valid_to = some t ∧ t ≤ d := by
  unfold merge_historical_data new_records at hr
  rw [List.mem_append, List.mem_append] at hr
  rcases hr with hr | hr | hr
  · obtain ⟨_, _, t, hvt, hlt⟩ := old_history_mem.mp hr
    exact ⟨t, hvt, Nat.le_of_lt hlt⟩
  · obtain ⟨s, _, hps⟩ := processAll_mem.mp hr
    rcases hf : (get_latest_records history_df).find? (fun x => pandasKeyEq x.car_id s.car_id)
      with _ | old_record
    · rw [processSnapRow_new history_df d s hf] at hps
      simp at hps
      rw [hps] at hlat
      simp [new_car_row] at hlat
    · rcases hc : compare_records old_record.toTracked s.toTracked TRACKING_COLUMNS with _ | _
      · rw [processSnapRow_unchanged history_df d s old_record hf hc] at hps
        simp at hps
        rw [hps] at hlat
        simp [restamp_row, found_latest_is_latest hf] at hlat
      · rw [processSnapRow_changed history_df d s old_record hf hc] at hps
        simp at hps
        rcases hps with hps | hps
        · rw [hps]
          exact ⟨d, rfl, Nat.le_refl d⟩
        · rw [hps] at hlat
          simp [changed_new_row] at hlat
  · obtain ⟨r0, _, _, _, _, rfl⟩ := disappeared_mem.mp hr
    exact ⟨d, rfl, Nat.le_refl d⟩

/-! ## The history invariant and its preservation -/

theorem merge_mem {S : List SnapRow} {history_df : List CarRow} {d : Nat} {r : CarRow} :
    r ∈ merge_historical_data S history_df d ↔
      r ∈ old_history history_df d ∨ (∃ s ∈ S, r ∈ processSnapRow history_df d s) ∨
        r ∈ disappeared_rows history_df S d := by
  unfold merge_historical_data new_records
  simp [processAll_mem, or_assoc]

theorem nodup_countP_beq_le_one {α : Type} [BEq α] [LawfulBEq α] {l : List α} (h : l.Nodup)
    (k : α) : l.countP (fun x => x == k) ≤ 1 := by
  induction l with
  | nil => simp
  | cons a t ih =>
    rw [List.nodup_cons] at h
    by_cases ha : a = k
    · subst ha
      have hz : t.countP (fun x => x == a) = 0 := by
        rw [List.countP_eq_zero]
        intro b hb
        simp only [beq_iff_eq]
        intro hbk
        subst hbk
        exact h.1 hb
      simp [List.countP_cons, hz]
    · simp only [List.countP_cons, beq_iff_eq, ha]
      simpa using ih h.2

theorem latestEmit_valid_from {history_df : List CarRow} {d dm : Nat} {s : SnapRow}
    (hls : latestSound dm history_df) (hdm : dm ≤ d) :
    ∃ vf, (latestEmit history_df d s).valid_from = some vf ∧ vf ≤ d := by
  unfold latestEmit
  rcases hf : (get_latest_records history_df).find? (fun r => pandasKeyEq r.car_id s.car_id) with
    _ | old_record
  · rw [hf]
    exact ⟨d, by simp [new_car_row], Nat.le_refl d⟩
  · rw [hf]
    rcases hc : compare_records old_record.toTracked s.toTracked TRACKING_COLUMNS with _ | _
    · obtain ⟨vf, hvf, hle⟩ :=
        hls old_record (found_latest_mem hf) (found_latest_is_latest hf)
      exact ⟨vf, by simp [hc, restamp_row, hvf], Nat.le_trans hle hdm⟩
    · exact ⟨d, by simp [hc, changed_new_row], Nat.le_refl d⟩

/-- One reconciliation run preserves the history invariant, provided the
snapshot keys are pairwise distinct and the run date is strictly later than
every previous run's (or the history is empty, as on the first run). -/
theorem merge_step_inv {S : List SnapRow} {history_df : List CarRow} {d dm : Nat}
    (hkeys : (S.map (fun s => s.car_id)).Nodup)
    (hInv : histInv dm history_df) (hlt : dm < d ∨ history_df = []) :
    histInv d (merge_historical_data S history_df d) := by
  obtain ⟨hU, hC, hL⟩ := hInv
  refine ⟨?_, ?_, ?_⟩
  · unfold uniqueLatestKeys
    rw [merge_filter_latest]
    have : (S.map (latestEmit history_df d)).map (fun r => r.car_id) =
        S.map (fun s => s.car_id) := by
      rw [List.map_map]
      exact List.map_congr_left (fun s _ => latestEmit_car_id history_df d s)
    rw [this]
    exact hkeys
  · intro r hr hlat
    rcases merge_mem.mp hr with hr | ⟨s, _, hps⟩ | hr
    · obtain ⟨hm, hcl, t, hvt, htd⟩ := old_history_mem.mp hr
      obtain ⟨vf, vt, hvf, hvt', hlt', _⟩ := hC r hm hcl
      have hvt2 : vt = t := by
        rw [hvt'] at hvt
        injection hvt
      exact ⟨vf, vt, hvf, hvt', hlt', by omega⟩
    · rcases hf : (get_latest_records history_df).find?
        (fun x => pandasKeyEq x.car_id s.car_id) with _ | old_record
      · rw [processSnapRow_new history_df d s hf] at hps
        simp at hps
        rw [hps] at hlat
        simp [new_car_row] at hlat
      · have hmem := found_latest_mem hf
        have hdm : dm < d := by
          rcases hlt with hlt | hnil
          · exact hlt
          · rw [hnil] at hmem; exact absurd hmem (List.not_mem_nil _)
        rcases hc : compare_records old_record.toTracked s.toTracked TRACKING_COLUMNS with _ | _
        · rw [processSnapRow_unchanged history_df d s old_record hf hc] at hps
          simp at hps
          rw [hps] at hlat
          simp [restamp_row, found_latest_is_latest hf] at hlat
        · rw [processSnapRow_changed history_df d s old_record hf hc] at hps
          simp at hps
          rcases hps with hps | hps
          · obtain ⟨vf, hvf, hle⟩ := hL old_record hmem (found_latest_is_latest hf)
            exact ⟨vf, d, by simp [hps, close_row, hvf], by simp [hps, close_row],
              by omega, Nat.le_refl d⟩
          · rw [hps] at hlat
            simp [changed_new_row] at hlat
    · obtain ⟨r0, hm, hlat0, _, _, rfl⟩ := disappeared_mem.mp hr
      have hdm : dm < d := by
        rcases hlt with hlt | hnil
        · exact hlt
        · rw [hnil] at hm; exact absurd hm (List.not_mem_nil _)
      obtain ⟨vf, hvf, hle⟩ := hL r0 hm hlat0
      exact ⟨vf, d, by simp [sold_row, hvf], by simp [sold_row], by omega, Nat.le_refl d⟩
  · intro r hr hlat
    have hr' : r ∈ (merge_historical_data S history_df d).filter (fun x => x.is_latest) :=
      List.mem_filter.mpr ⟨hr, hlat⟩
    rw [merge_filter_latest] at hr'
    obtain ⟨s, _, rfl⟩ := List.mem_map.mp hr'
    have hls : latestSound (min dm d) history_df := by
      intro x hx hlx
      rcases hlt with hlt | hnil
      · obtain ⟨vf, hvf, hle⟩ := hL x hx hlx
        exact ⟨vf, hvf, by omega⟩
      · rw [hnil] at hx; exact absurd hx (List.not_mem_nil _)
    obtain ⟨vf, hvf, hle⟩ := latestEmit_valid_from hls (Nat.min_le_right dm d)
    exact ⟨vf, hvf, hle⟩

/-- Chained preservation over a run sequence. -/
theorem mergeRunsFrom_inv (runs : List (List SnapRow × Nat)) :
    ∀ (h : List CarRow) (dm : Nat), histInv dm h →
      List.Chain (fun a b => a < b) dm (runDates runs) →
      (∀ p ∈ runs, (p.1.map (fun s => s.car_id)).Nodup) →
      ∃ dmax, histInv dmax (mergeRunsFrom h runs) := by
  induction runs with
  | nil => exact fun h dm hInv _ _ => ⟨dm, hInv⟩
  | cons p rest ih =>
    intro h dm hInv hch hk
    obtain ⟨S, d⟩ := p
    rw [runDates, List.map_cons, List.chain_cons] at hch
    have hstep := merge_step_inv (hk (S, d) (List.mem_cons_self _ _)) hInv (Or.inl hch.1)
    exact ih (merge_historical_data S h d) d hstep hch.2
      (fun q hq => hk q (List.mem_cons_of_mem _ hq))

theorem histInv_nil (dm : Nat) : histInv dm [] := by
  refine ⟨?_, ?_, ?_⟩ <;> simp [uniqueLatestKeys, closedSound, latestSound, get_latest_records]

/-- The invariant holds for every history reachable by a sequence of runs
with strictly increasing dates and well-keyed snapshots. -/
theorem mergeRuns_inv (runs : List (List SnapRow × Nat))
    (hk : ∀ p ∈ runs, (p.1.map (fun s => s.car_id)).Nodup)
    (hdates : List.Chain' (fun a b => a < b) (runDates runs)) :
    ∃ dmax, histInv dmax (mergeRuns runs) := by
  unfold mergeRuns
  cases runs with
  | nil => exact ⟨0, histInv_nil 0⟩
  | cons p rest =>
    obtain ⟨S, d⟩ := p
    rw [runDates, List.map_cons] at hdates
    rw [mergeRunsFrom]
    have hstep : histInv d (merge_historical_data S [] d) :=
      merge_step_inv (hk (S, d) (List.mem_cons_self _ _)) (histInv_nil d) (Or.inr rfl)
    exact mergeRunsFrom_inv rest _ d hstep hdates
      (fun q hq => hk q (List.mem_cons_of_mem _ hq))

theorem latest_key_count (l : List CarRow) (k : Option Nat) :
    l.countP (fun r => r.is_latest && r.car_id == k) =
      ((l.filter (fun r => r.is_latest)).map (fun r => r.car_id)).countP (fun x => x == k) := by
  induction l with
  | nil => rfl
  | cons a t ih =>
    by_cases h : a.is_latest <;> by_cases h2 : a.car_id == k <;>
      simp [List.countP_cons, List.filter_cons, h, h2, ih]

/-! ## Claim C1 -/

/-- **C1** (amended).  For every history produced by a sequence of
`merge_historical_data` runs starting from the empty history, with unique
non-missing keys per snapshot and *strictly increasing run dates*, each
`car_id` has at most one `is_latest = true` row, and every `is_latest = false`
row has a non-null `valid_to` with `valid_from` strictly less than `valid_to`.
(As stated — over arbitrary run-date sequences — the claim fails: two runs on
one date close a version with `valid_from = valid_to`; see the
counterexample.) -/
theorem C1_history_invariant (runs : List (List SnapRow × Nat))
    (hkeys : snapshotsWellKeyed runs)
    (hdates : List.Pairwise (fun a b => a < b) (runDates runs)) :
    (∀ k : Option Nat,
      (mergeRuns runs).countP (fun r => r.is_latest && r.car_id == k) ≤ 1) ∧
    ∀ r ∈ mergeRuns runs, r.is_latest = false →
      ∃ vf vt, r.valid_from = some vf ∧ r.valid_to = some vt ∧ vf < vt := by
  obtain ⟨dmax, hU, hC, _⟩ :=
    mergeRuns_inv runs (fun p hp => (hkeys p hp).1) hdates.chain'

  constructor
  · intro k
    rw [latest_key_count]
    exact nodup_countP_beq_le_one hU k
  · intro r hr hlat
    obtain ⟨vf, vt, hvf, hvt, hlt, _⟩ := hC r hr hlat
    exact ⟨vf, vt, hvf, hvt, hlt⟩

theorem C1_history_invariant_witness :
    (∀ k : Option Nat,
      (mergeRuns [([exSnap1], 5), ([exSnap2], 6)]).countP
        (fun r => r.is_latest && r.car_id == k) ≤ 1) ∧
    ∀ r ∈ mergeRuns [([exSnap1], 5), ([exSnap2], 6)], r.is_latest = false →
      ∃ vf vt, r.valid_from = some vf ∧ r.valid_to = some vt ∧ vf < vt :=
  C1_history_invariant [([exSnap1], 5), ([exSnap2], 6)] (by decide) (by decide)

/-- **C1, counterexample to the claim as stated**: with two runs on the same
date (both snapshots having unique keys), the produced history contains a
closed row whose `valid_from` equals its `valid_to`, refuting
`valid_from < valid_to`. -/
theorem C1_counterexample :
    snapshotsWellKeyed [([exSnap1], 5), ([exSnap2], 5)] ∧
    ¬ (∀ r ∈ mergeRuns [([exSnap1], 5), ([exSnap2], 5)], r.is_latest = false →
        ∃ vf vt, r.valid_from = some vf ∧ r.valid_to = some vt ∧ vf < vt) := by
  constructor
  · decide
  · intro hall
    have hmem : close_row (new_car_row exSnap1 5) 5 ∈
        mergeRuns [([exSnap1], 5), ([exSnap2], 5)] := by decide
    obtain ⟨vf, vt, hvf, hvt, hlt⟩ := hall _ hmem (by decide)
    have hvf5 : vf = 5 := by
      have : (close_row (new_car_row exSnap1 5) 5).valid_from = some 5 := by decide
      rw [this] at hvf
      injection hvf with h
      exact h.symm
    have hvt5 : vt = 5 := by
      have : (close_row (new_car_row exSnap1 5) 5).valid_to = some 5 := by decide
      rw [this] at hvt
      injection hvt with h
      exact h.symm
    omega

/-! ## Claim C2 -/

/-- **C2** (amended).  A previously-closed row is passed through verbatim by
`merge_historical_data` *provided its `valid_to` is strictly before the run
date*.  (As stated — for every closed row regardless of `valid_to`, including
rows closed on the run date itself — the claim fails: the `old_history`
selection keeps only rows with `valid_to < today`, so a row closed on the
current run's date is dropped; see the counterexample.) -/
theorem C2_closed_rows_passthrough (S : List SnapRow) (history_df : List CarRow) (d : Nat)
    (r : CarRow) (hr : r ∈ history_df) (hcl : r.is_latest = false)
    (t : Nat) (hvt : r.valid_to = some t) (hlt : t < d) :
    r ∈ merge_historical_data S history_df d := by
  unfold merge_historical_data
  exact List.mem_append_left _ (old_history_mem.mpr ⟨hr, hcl, t, hvt, hlt⟩)

theorem C2_closed_rows_passthrough_witness :
    exClosedRow ∈ merge_historical_data [] [exClosedRow] 6 :=
  C2_closed_rows_passthrough [] [exClosedRow] 6 exClosedRow (by decide) (by decide)
    5 (by decide) (by decide)

/-- **C2, counterexample to the claim as stated**: a row closed on the same
date as the current run (`valid_to = 5`, run date 5) is dropped from the
output, so not every closed row of the existing history appears in the
merge result. -/
theorem C2_counterexample :
    exClosedRow ∈ [exClosedRow] ∧ exClosedRow.is_latest = false ∧
      exClosedRow ∉ merge_historical_data [] [exClosedRow] 5 := by
  decide

/-! ## Claim C3 -/

/-- **C3** (amended).  `merge_historical_data` performs no duplicate-key
detection and raises no error: each snapshot row carrying a duplicated key is
merged independently against the pre-merge latest partition, so a key present
twice in one snapshot yields exactly two `is_latest = true` rows for that key
in the output — the merge silently keeps both duplicates instead of failing
loudly.  (The source function has no raise path at all; the claimed
structured error does not exist.) -/
theorem C3_duplicate_keys_kept (s₁ s₂ : SnapRow) (history_df : List CarRow) (d : Nat)
    (k : Nat) (hk1 : s₁.car_id = some k) (hk2 : s₂.car_id = some k) :
    (merge_historical_data [s₁, s₂] history_df d).countP
      (fun r => r.is_latest && r.car_id == some k) = 2 := by
  rw [latest_key_count, merge_filter_latest]
  simp [List.countP_cons, latestEmit_car_id, hk1, hk2]

theorem C3_duplicate_keys_kept_witness :
    (merge_historical_data [exSnap1, exSnap2] [] 5).countP
      (fun r => r.is_latest && r.car_id == some 1) = 2 :=
  C3_duplicate_keys_kept exSnap1 exSnap2 [] 5 1 (by decide) (by decide)

/-- **C3, counterexample to the claim as stated**: merging a snapshot that
contains car 1 twice returns an ordinary two-row history — both duplicate
rows are emitted as `is_latest = true` versions of key 1 — rather than
raising an error identifying the key. -/
theorem C3_counterexample :
    (merge_historical_data [exSnap1, exSnap2] [] 5).length = 2 ∧
      ∀ r ∈ merge_historical_data [exSnap1, exSnap2] [] 5,
        r.is_latest = true ∧ r.car_id = some 1 := by
  decide

/-! ## Claim C4 -/

theorem find?_map_latestEmit {S : List SnapRow} {h0 : List CarRow} {d1 : Nat} {s : SnapRow}
    {k : Nat} (hN : (S.map (fun x => x.car_id)).Nodup) (hs : s ∈ S) (hk : s.car_id = some k) :
    (S.map (latestEmit h0 d1)).find? (fun r => pandasKeyEq r.car_id s.car_id) =
      some (latestEmit h0 d1 s) := by
  induction S with
  | nil => exact absurd hs (List.not_mem_nil s)
  | cons a rest ih =>
    rw [List.map_cons, List.nodup_cons] at hN
    rcases List.mem_cons.mp hs with rfl | hs'
    · rw [List.map_cons, List.find?_cons]
      have : pandasKeyEq (latestEmit h0 d1 s).car_id s.car_id = true := by
        rw [latestEmit_car_id, hk]
        exact pandasKeyEq_self
      rw [this]
    · rw [List.map_cons, List.find?_cons]
      have hfalse : pandasKeyEq (latestEmit h0 d1 a).car_id s.car_id = false := by
        rcases hp : pandasKeyEq (latestEmit h0 d1 a).car_id s.car_id with _ | _
        · rfl
        · exfalso
          have ha : a.car_id = s.car_id := by
            rw [← latestEmit_car_id h0 d1 a]
            exact pandasKeyEq_eq hp
          exact hN.1 (ha ▸ (List.mem_map.mpr ⟨s, hs', rfl⟩))
      rw [hfalse]
      exact ih hN.2 hs'

theorem old_history_eq_closed {h : List CarRow} {d : Nat}
    (hcl : ∀ r ∈ h, r.is_latest = false → ∃ t, r.valid_to = some t ∧ t < d) :
    old_history h d = h.filter (fun r => !r.is_latest) := by
  unfold old_history
  apply List.filter_congr
  intro r hr
  rcases hl : r.is_latest with _ | _
  · obtain ⟨t, hvt, hlt⟩ := hcl r hr hl
    simp [hl, hvt, hlt]
  · simp [hl]

theorem disappeared_nil {h : List CarRow} {S : List SnapRow} {d : Nat}
    (hall : ∀ r ∈ h, r.is_latest = true →
      (S.map (fun s => s.car_id)).contains r.car_id = true) :
    disappeared_rows h S d = [] := by
  unfold disappeared_rows get_latest_records
  rw [List.map_eq_nil_iff, List.filter_eq_nil_iff]
  intro r hr
  obtain ⟨hm, hl⟩ := List.mem_filter.mp hr
  rw [hall r hm hl]
  simp

theorem processAll_remerge {S : List SnapRow} {h0 H : List CarRow} {d1 d2 : Nat}
    (hH : H.filter (fun r => r.is_latest) = S.map (latestEmit h0 d1))
    (hN : (S.map (fun s => s.car_id)).Nodup)
    (hsome : ∀ s ∈ S, s.car_id.isSome) :
    ∀ S' : List SnapRow, (∀ s ∈ S', s ∈ S) →
      processAll H d2 S' = S'.map (fun s => restamp_row (latestEmit h0 d1 s) d2) := by
  intro S' hsub
  induction S' with
  | nil => rfl
  | cons s rest ih =>
    have hs : s ∈ S := hsub s (List.mem_cons_self s rest)
    obtain ⟨k, hk⟩ := Option.isSome_iff_exists.mp (hsome s hs)
    have hfind : (get_latest_records H).find? (fun r => pandasKeyEq r.car_id s.car_id) =
        some (latestEmit h0 d1 s) := by
      unfold get_latest_records
      rw [hH]
      exact find?_map_latestEmit hN hs hk
    rw [processAll, processSnapRow_unchanged H d2 s _ hfind (latestEmit_compare h0 d1 s),
      ih (fun x hx => hsub x (List.mem_cons_of_mem s hx))]
    rfl

/-- Re-merging a snapshot into the history it just produced, at a strictly
later date, restamps the latest partition and passes every closed row
through. -/
theorem merge_remerge (S : List SnapRow) (h0 : List CarRow) (d1 d2 : Nat)
    (hN : (S.map (fun s => s.car_id)).Nodup) (hsome : ∀ s ∈ S, s.car_id.isSome)
    (hd : d1 < d2) :
    merge_historical_data S (merge_historical_data S h0 d1) d2 =
      (merge_historical_data S h0 d1).filter (fun r => !r.is_latest) ++
      ((merge_historical_data S h0 d1).filter (fun r => r.is_latest)).map
        (fun r => restamp_row r d2) := by
  have hlatest := merge_filter_latest S h0 d1
  have hold : old_history (merge_historical_data S h0 d1) d2 =
      (merge_historical_data S h0 d1).filter (fun r => !r.is_latest) := by
    apply old_history_eq_closed
    intro r hr hl
    obtain ⟨t, hvt, hle⟩ := merge_closed_valid_to hr hl
    exact ⟨t, hvt, by omega⟩
  have hdis : disappeared_rows (merge_historical_data S h0 d1) S d2 = [] := by
    apply disappeared_nil
    intro r hr hl
    have : r ∈ (merge_historical_data S h0 d1).filter (fun x => x.is_latest) :=
      List.mem_filter.mpr ⟨hr, hl⟩
    rw [hlatest] at this
    obtain ⟨s, hs, rfl⟩ := List.mem_map.mp this
    rw [latestEmit_car_id]
    exact List.elem_eq_true_of_mem (List.mem_map.mpr ⟨s, hs, rfl⟩)
  have hpa : processAll (merge_historical_data S h0 d1) d2 S =
      S.map (fun s => restamp_row (latestEmit h0 d1 s) d2) :=
    processAll_remerge hlatest hN hsome S (fun _ hx => hx)
  conv =>
    lhs
    rw [merge_historical_data, new_records, hold, hdis, hpa]
  rw [hlatest, List.map_map]
  simp

/-- **C4** (amended).  If `H` was produced by merging snapshot `S` (unique,
non-missing keys) and `S` is merged against `H` again at a *strictly later*
run date, the result has the same number of rows; every previously-closed row
is passed through unchanged (zero new closed rows), and each latest row is
re-emitted with only `last_seen_date` and `scrape_date` refreshed to the new
run date (`restamp_row`), leaving `valid_from`, `first_seen_date` and
`is_latest` untouched.  (As stated — for an arbitrary second run date — the
claim fails: re-merging on the same date drops the rows the first merge
closed on that date; see the counterexample.) -/
theorem C4_noop_remerge (S : List SnapRow) (h0 : List CarRow) (d1 d2 : Nat)
    (hN : (S.map (fun s => s.car_id)).Nodup) (hsome : ∀ s ∈ S, s.car_id.isSome)
    (hd : d1 < d2) :
    (merge_historical_data S (merge_historical_data S h0 d1) d2).length =
        (merge_historical_data S h0 d1).length ∧
    merge_historical_data S (merge_historical_data S h0 d1) d2 =
      (merge_historical_data S h0 d1).filter (fun r => !r.is_latest) ++
        ((merge_historical_data S h0 d1).filter (fun r => r.is_latest)).map
          (fun r => restamp_row r d2) ∧
    (merge_historical_data S (merge_historical_data S h0 d1) d2).filter
        (fun r => !r.is_latest) =
      (merge_historical_data S h0 d1).filter (fun r => !r.is_latest) := by
  have hmain := merge_remerge S h0 d1 d2 hN hsome hd
  refine ⟨?_, hmain, ?_⟩
  · rw [hmain, List.length_append, List.length_map]
    rw [← List.countP_eq_length_filter, ← List.countP_eq_length_filter]
    have := countP_partition_length (fun r : CarRow => r.is_latest)
      (merge_historical_data S h0 d1)
    omega
  · rw [hmain, List.filter_append]
    have h1 : ((merge_historical_data S h0 d1).filter (fun r => !r.is_latest)).filter
        (fun r => !r.is_latest) =
        (merge_historical_data S h0 d1).filter (fun r => !r.is_latest) :=
      List.filter_eq_self.mpr (fun a ha => (List.mem_filter.mp ha).2)
    have h2 : (((merge_historical_data S h0 d1).filter (fun r => r.is_latest)).map
        (fun r => restamp_row r d2)).filter (fun r => !r.is_latest) = [] := by
      rw [List.filter_eq_nil_iff]
      intro r hr
      obtain ⟨r0, hr0, rfl⟩ := List.mem_map.mp hr
      have := (List.mem_filter.mp hr0).2
      simp [restamp_row, this]
    rw [h1, h2, List.append_nil]

theorem C4_noop_remerge_witness :
    (merge_historical_data [exSnap2]
        (merge_historical_data [exSnap2] (merge_historical_data [exSnap1] [] 5) 6) 7).length =
      (merge_historical_data [exSnap2] (merge_historical_data [exSnap1] [] 5) 6).length ∧
    merge_historical_data [exSnap2]
        (merge_historical_data [exSnap2] (merge_historical_data [exSnap1] [] 5) 6) 7 =
      (merge_historical_data [exSnap2] (merge_historical_data [exSnap1] [] 5) 6).filter
          (fun r => !r.is_latest) ++
        ((merge_historical_data [exSnap2] (merge_historical_data [exSnap1] [] 5) 6).filter
            (fun r => r.is_latest)).map (fun r => restamp_row r 7) ∧
    (merge_historical_data [exSnap2]
        (merge_historical_data [exSnap2] (merge_historical_data [exSnap1] [] 5) 6) 7).filter
        (fun r => !r.is_latest) =
      (merge_historical_data [exSnap2] (merge_historical_data [exSnap1] [] 5) 6).filter
        (fun r => !r.is_latest) :=
  C4_noop_remerge [exSnap2] (merge_historical_data [exSnap1] [] 5) 6 7
    (by decide) (by decide) (by decide)

/-- **C4, counterexample to the claim as stated**: take the history `H`
produced by merging `[exSnap2]` (on day 5, against a history holding an older
version of the car); re-merging the *same snapshot* `[exSnap2]` against `H`
on the same day 5 yields 1 row where `H` has 2 — the row closed on day 5 is
dropped, so the size-preservation part of the claim is false for same-day
reruns. -/
theorem C4_counterexample :
    (merge_historical_data [exSnap2] (merge_historical_data [exSnap1] [] 5) 5).length = 2 ∧
    (merge_historical_data [exSnap2]
        (merge_historical_data [exSnap2] (merge_historical_data [exSnap1] [] 5) 5) 5).length =
      1 := by
  decide

/-! ## Claims C5 and C7: per-key emissions of one run -/

theorem disappeared_filter_key {h : List CarRow} {S : List SnapRow} {d : Nat} {k : Nat}
    {s : SnapRow} (hs : s ∈ S) (hk : s.car_id = some k) :
    (disappeared_rows h S d).filter (fun r => r.car_id == some k) = [] := by
  rw [List.filter_eq_nil_iff]
  intro r hr
  obtain ⟨r0, hm, hl, hni, hact, rfl⟩ := disappeared_mem.mp hr
  intro hkk
  have hr0 : r0.car_id = some k := by simpa [sold_row] using hkk
  rw [hr0] at hni
  have hcont : (S.map (fun x => x.car_id)).contains (some k) = true :=
    List.elem_eq_true_of_mem (List.mem_map.mpr ⟨s, hs, hk⟩)
  rw [hcont] at hni
  cases hni

theorem processAll_filter_key {S : List SnapRow} {h : List CarRow} {d : Nat} {k : Nat}
    {s : SnapRow} (hs : s ∈ S) (hk : s.car_id = some k)
    (hN : (S.map (fun x => x.car_id)).Nodup) :
    (processAll h d S).filter (fun r => r.car_id == some k) = processSnapRow h d s := by
  induction S with
  | nil => exact absurd hs (List.not_mem_nil s)
  | cons a rest ih =>
    rw [List.map_cons, List.nodup_cons] at hN
    rw [processAll, List.filter_append]
    rcases List.mem_cons.mp hs with rfl | hs'
    · have h1 : (processSnapRow h d s).filter (fun r => r.car_id == some k) =
          processSnapRow h d s :=
        List.filter_eq_self.mpr (fun r hr => by
          simp [processSnapRow_car_id h d s r hr, hk])
      have h2 : (processAll h d rest).filter (fun r => r.car_id == some k) = [] := by
        rw [List.filter_eq_nil_iff]
        intro r hr hkk
        obtain ⟨s', hs'', hps⟩ := processAll_mem.mp hr
        have : r.car_id = s'.car_id := processSnapRow_car_id h d s' r hps
        rw [this] at hkk
        have hs'k : s'.car_id = some k := by simpa using hkk
        exact hN.1 (hk ▸ hs'k ▸ List.mem_map.mpr ⟨s', hs'', rfl⟩)
      rw [h1, h2, List.append_nil]
    · have h1 : (processSnapRow h d a).filter (fun r => r.car_id == some k) = [] := by
        rw [List.filter_eq_nil_iff]
        intro r hr hkk
        have : r.car_id = a.car_id := processSnapRow_car_id h d a r hr
        rw [this] at hkk
        have hak : a.car_id = some k := by simpa using hkk
        exact hN.1 (hak ▸ hk ▸ List.mem_map.mpr ⟨s, hs', rfl⟩)
      rw [h1, ih hs' hN.2, List.nil_append]

/-- **C5** (confirmed).  For a snapshot row whose key has an
`is_latest = true` row in history and whose tracked fields differ (comparator
returns true), the run emits exactly two rows for that key: a closing copy of
the old row with `valid_to = as_of`, `is_latest = false` and `status`
unchanged, and a new open row with `first_seen_date` copied from the old row,
`last_seen_date = valid_from = as_of`, `valid_to = null`,
`is_latest = true`, `status = active`.  (Snapshot keys are assumed unique —
the caller contract.) -/
theorem C5_changed_emits_close_and_reopen (S : List SnapRow) (history_df : List CarRow)
    (d : Nat) (k : Nat) (s : SnapRow) (old_record : CarRow)
    (hs : s ∈ S) (hk : s.car_id = some k)
    (hN : (S.map (fun x => x.car_id)).Nodup)
    (hfind : (get_latest_records history_df).find? (fun r => pandasKeyEq r.car_id s.car_id) =
      some old_record)
    (hcmp : compare_records old_record.toTracked s.toTracked TRACKING_COLUMNS = true) :
    (new_records S history_df d).filter (fun r => r.car_id == some k) =
      [close_row old_record d, changed_new_row s old_record d] ∧
    (close_row old_record d).valid_to = some d ∧
    (close_row old_record d).is_latest = false ∧
    (close_row old_record d).status = old_record.status ∧
    (close_row old_record d).toTracked = old_record.toTracked ∧
    (changed_new_row s old_record d).first_seen_date = old_record.first_seen_date ∧
    (changed_new_row s old_record d).last_seen_date = some d ∧
    (changed_new_row s old_record d).valid_from = some d ∧
    (changed_new_row s old_record d).valid_to = none ∧
    (changed_new_row s old_record d).is_latest = true ∧
    (changed_new_row s old_record d).status = "active" := by
  refine ⟨?_, rfl, rfl, rfl, rfl, rfl, rfl, rfl, rfl, rfl, rfl⟩
  rw [new_records, List.filter_append, processAll_filter_key hs hk hN,
    disappeared_filter_key hs hk, List.append_nil]
  exact processSnapRow_changed history_df d s old_record hfind hcmp

theorem C5_changed_emits_close_and_reopen_witness :
    ((new_records [exSnap2] (merge_historical_data [exSnap1] [] 5) 6).filter
        (fun r => r.car_id == some 1) =
      [close_row (new_car_row exSnap1 5) 6,
        changed_new_row exSnap2 (new_car_row exSnap1 5) 6] ∧
    (close_row (new_car_row exSnap1 5) 6).valid_to = some 6 ∧
    (close_row (new_car_row exSnap1 5) 6).is_latest = false ∧
    (close_row (new_car_row exSnap1 5) 6).status = (new_car_row exSnap1 5).status ∧
    (close_row (new_car_row exSnap1 5) 6).toTracked = (new_car_row exSnap1 5).toTracked ∧
    (changed_new_row exSnap2 (new_car_row exSnap1 5) 6).first_seen_date =
      (new_car_row exSnap1 5).first_seen_date ∧
    (changed_new_row exSnap2 (new_car_row exSnap1 5) 6).last_seen_date = some 6 ∧
    (changed_new_row exSnap2 (new_car_row exSnap1 5) 6).valid_from = some 6 ∧
    (changed_new_row exSnap2 (new_car_row exSnap1 5) 6).valid_to = none ∧
    (changed_new_row exSnap2 (new_car_row exSnap1 5) 6).is_latest = true ∧
    (changed_new_row exSnap2 (new_car_row exSnap1 5) 6).status = "active") :=
  C5_changed_emits_close_and_reopen [exSnap2] (merge_historical_data [exSnap1] [] 5) 6 1
    exSnap2 (new_car_row exSnap1 5) (by decide) (by decide) (by decide) (by decide) (by decide)

/-- **C7** (confirmed).  For a snapshot row whose key has no
`is_latest = true` row in the existing history, the run emits exactly one new
row for that key, with `first_seen_date = last_seen_date = valid_from =
as_of`, `valid_to = null`, `is_latest = true` and `status = active`.
(Snapshot keys are assumed unique — the caller contract.) -/
theorem C7_new_key_emits_one_row (S : List SnapRow) (history_df : List CarRow)
    (d : Nat) (k : Nat) (s : SnapRow)
    (hs : s ∈ S) (hk : s.car_id = some k)
    (hN : (S.map (fun x => x.car_id)).Nodup)
    (hfind : (get_latest_records history_df).find? (fun r => pandasKeyEq r.car_id s.car_id) =
      none) :
    (new_records S history_df d).filter (fun r => r.car_id == some k) = [new_car_row s d] ∧
    (new_car_row s d).first_seen_date = some d ∧
    (new_car_row s d).last_seen_date = some d ∧
    (new_car_row s d).valid_from = some d ∧
    (new_car_row s d).valid_to = none ∧
    (new_car_row s d).is_latest = true ∧
    (new_car_row s d).status = "active" := by
  refine ⟨?_, rfl, rfl, rfl, rfl, rfl, rfl⟩
  rw [new_records, List.filter_append, processAll_filter_key hs hk hN,
    disappeared_filter_key hs hk, List.append_nil]
  exact processSnapRow_new history_df d s hfind

theorem C7_new_key_emits_one_row_witness :
    ((new_records [exSnap1] [] 5).filter (fun r => r.car_id == some 1) =
      [new_car_row exSnap1 5] ∧
    (new_car_row exSnap1 5).first_seen_date = some 5 ∧
    (new_car_row exSnap1 5).last_seen_date = some 5 ∧
    (new_car_row exSnap1 5).valid_from = some 5 ∧
    (new_car_row exSnap1 5).valid_to = none ∧
    (new_car_row exSnap1 5).is_latest = true ∧
    (new_car_row exSnap1 5).status = "active") :=
  C7_new_key_emits_one_row [exSnap1] [] 5 1 exSnap1 (by decide) (by decide) (by decide)
    (by decide)

/-! ## Claim C6 -/

theorem nodup_subset_length_le {α : Type} [DecidableEq α] {l₁ : List α} (l₂ : List α)
    (h1 : l₁.Nodup) (hsub : ∀ a ∈ l₁, a ∈ l₂) : l₁.length ≤ l₂.length := by
  calc l₁.length = l₁.toFinset.card := (List.toFinset_card_of_nodup h1).symm
    _ ≤ l₂.toFinset.card :=
      Finset.card_le_card (fun a ha => List.mem_toFinset.mpr (hsub a (List.mem_toFinset.mp ha)))
    _ ≤ l₂.length := l₂.toFinset_card_le

/-- **C6** (amended).  A key that is `is_latest = true` with `status =
"active"` in the existing history but absent from the snapshot is retired:
the run emits a closing copy of its latest row with `valid_to = as_of`,
`is_latest = false` and the retirement marker `status = "sold"` (the code's
name for the spec's `retired`), and — for well-formed histories (closed rows
closed strictly before the run date, latest rows active and per-key unique,
as every history produced by date-increasing runs is) — the total row count
never *decreases*.  (As stated the claim fails twice: the count does not
strictly increase — pure retirement closes the latest row in place, keeping
the count constant — and the code's status marker is the string `"sold"`;
see the counterexample.) -/
theorem C6_disappeared_retired (S : List SnapRow) (history_df : List CarRow) (d : Nat)
    (r0 : CarRow) (hm : r0 ∈ history_df) (hl : r0.is_latest = true)
    (hact : r0.status = "active")
    (hni : (S.map (fun s => s.car_id)).contains r0.car_id = false)
    (hwfC : ∀ r ∈ history_df, r.is_latest = false → ∃ t, r.valid_to = some t ∧ t < d)
    (hwfA : ∀ r ∈ history_df, r.is_latest = true → r.status = "active")
    (hwfU : ((history_df.filter (fun r => r.is_latest)).map (fun r => r.car_id)).Nodup) :
    sold_row r0 d ∈ merge_historical_data S history_df d ∧
    (sold_row r0 d).valid_to = some d ∧
    (sold_row r0 d).is_latest = false ∧
    (sold_row r0 d).status = "sold" ∧
    (sold_row r0 d).toTracked = r0.toTracked ∧
    history_df.length ≤ (merge_historical_data S history_df d).length := by
  refine ⟨?_, rfl, rfl, rfl, rfl, ?_⟩
  · exact merge_mem.mpr (Or.inr (Or.inr (disappeared_mem.mpr ⟨r0, hm, hl, hni, hact, rfl⟩)))
  · have hlen : (merge_historical_data S history_df d).length =
        (old_history history_df d).length + (processAll history_df d S).length +
          (disappeared_rows history_df S d).length := by
      unfold merge_historical_data new_records
      simp [List.length_append]
      omega
    have hold : (old_history history_df d).length =
        (history_df.filter (fun r => !r.is_latest)).length := by
      rw [old_history_eq_closed hwfC]
    have hdis : (disappeared_rows history_df S d).length =
        ((history_df.filter (fun r => r.is_latest)).filter
          (fun r => !(S.map (fun s => s.car_id)).contains r.car_id)).length := by
      unfold disappeared_rows get_latest_records
      rw [List.length_map]
      congr 1
      apply List.filter_congr
      intro r hr
      rw [hwfA r (List.mem_filter.mp hr).1 (List.mem_filter.mp hr).2]
      simp
    have hpart : (history_df.filter (fun r => r.is_latest)).length =
        ((history_df.filter (fun r => r.is_latest)).filter
            (fun r => (S.map (fun s => s.car_id)).contains r.car_id)).length +
          ((history_df.filter (fun r => r.is_latest)).filter
            (fun r => !(S.map (fun s => s.car_id)).contains r.car_id)).length := by
      have h1 := countP_partition_length
        (fun r : CarRow => (S.map (fun s => s.car_id)).contains r.car_id)
        (history_df.filter (fun r => r.is_latest))
      rw [List.countP_eq_length_filter, List.countP_eq_length_filter] at h1
      omega
    have hin : (((history_df.filter (fun r => r.is_latest)).filter
          (fun r => (S.map (fun s => s.car_id)).contains r.car_id))).length ≤ S.length := by
      have hsub : (((history_df.filter (fun r => r.is_latest)).filter
            (fun r => (S.map (fun s => s.car_id)).contains r.car_id))).Sublist
          (history_df.filter (fun r => r.is_latest)) := List.filter_sublist _
      have hnd : ((((history_df.filter (fun r => r.is_latest)).filter
            (fun r => (S.map (fun s => s.car_id)).contains r.car_id))).map
            (fun r => r.car_id)).Nodup :=
        hwfU.sublist (hsub.map (fun r : CarRow => r.car_id))
      have hle := nodup_subset_length_le (S.map (fun s => s.car_id)) hnd
        (fun a ha => by
          obtain ⟨r, hr, rfl⟩ := List.mem_map.mp ha
          exact List.mem_of_elem_eq_true (List.mem_filter.mp hr).2)
      simp only [List.length_map] at hle
      exact hle
    have hfullpart : history_df.length =
        (history_df.filter (fun r => !r.is_latest)).length +
          (history_df.filter (fun r => r.is_latest)).length := by
      have h1 := countP_partition_length (fun r : CarRow => r.is_latest) history_df
      rw [List.countP_eq_length_filter, List.countP_eq_length_filter] at h1
      omega
    have hpa := processAll_length_ge history_df d S
    omega

theorem C6_disappeared_retired_witness :
    sold_row (new_car_row exSnap1 5) 6 ∈
      merge_historical_data [] [new_car_row exSnap1 5] 6 ∧
    (sold_row (new_car_row exSnap1 5) 6).valid_to = some 6 ∧
    (sold_row (new_car_row exSnap1 5) 6).is_latest = false ∧
    (sold_row (new_car_row exSnap1 5) 6).status = "sold" ∧
    (sold_row (new_car_row exSnap1 5) 6).toTracked = (new_car_row exSnap1 5).toTracked ∧
    ([new_car_row exSnap1 5] : List CarRow).length ≤
      (merge_historical_data [] [new_car_row exSnap1 5] 6).length :=
  C6_disappeared_retired [] [new_car_row exSnap1 5] 6 (new_car_row exSnap1 5)
    (by decide) (by decide) (by decide) (by decide) (by decide) (by decide) (by decide)

/-- **C6, counterexample to the claim as stated**: retiring the only active
car (history of one open row, empty snapshot) emits the closing copy but
keeps the row count at 1 — the count does not strictly increase; moreover
the closing copy's status marker is `"sold"`, not the literal `"retired"`. -/
theorem C6_counterexample :
    (new_car_row exSnap1 5).is_latest = true ∧
    (new_car_row exSnap1 5).status = "active" ∧
    (([] : List SnapRow).map (fun s => s.car_id)).contains
      (new_car_row exSnap1 5).car_id = false ∧
    ¬((merge_historical_data [exSnap1] [] 5).length <
        (merge_historical_data [] (merge_historical_data [exSnap1] [] 5) 6).length) ∧
    ∀ r ∈ merge_historical_data [] (merge_historical_data [exSnap1] [] 5) 6,
      r.status ≠ "retired" := by
  decide

/-! ## Claim C8 -/

/-- **C8** (amended).  For the numeric tracked columns (`price`,
`kilometers`, `horse_power_kw`, `horse_power_ps`, `battery_range_km`),
`compare_records` reports no change when the field is missing on both sides,
a change when it is missing on exactly one side, and compares present values
exactly.  Non-numeric tracked fields are compared by string representation,
so a missing value (stringified `"nan"`) and an empty string are *not*
equal.  However, the stringified missing value is **not** distinct from every
real value: a real string equals the sentinel exactly when it is the literal
`"nan"`, so a missing field and the string value `"nan"` compare as equal
(see the counterexample). -/
theorem C8_comparator_null_semantics :
    (∀ c ∈ numericTrackedCols, ∀ o n : Tracked, numVal o c = none → numVal n c = none →
      compare_records o n [c] = false) ∧
    (∀ c ∈ numericTrackedCols, ∀ o n : Tracked,
      (numVal o c).isSome ≠ (numVal n c).isSome → compare_records o n [c] = true) ∧
    (∀ c ∈ numericTrackedCols, ∀ o n : Tracked, ∀ v w : Int, numVal o c = some v →
      numVal n c = some w → (compare_records o n [c] = true ↔ v ≠ w)) ∧
    (∀ o n : Tracked, o.model_name = SVal.missing → n.model_name = SVal.val "" →
      compare_records o n [TCol.model_name] = true) ∧
    pyStr SVal.missing = "nan" ∧
    (∀ s : String, pyStr (SVal.val s) = pyStr SVal.missing ↔ s = "nan") := by
  refine ⟨?_, ?_, ?_, ?_, rfl, ?_⟩
  · intro c hc o n ho hn
    simp [compare_records, colChanged, hc, ho, hn]
  · intro c hc o n hne
    rcases ho : numVal o c with _ | v <;> rcases hn : numVal n c with _ | w
    · rw [ho, hn] at hne; simp at hne
    · simp [compare_records, colChanged, hc, ho, hn]
    · simp [compare_records, colChanged, hc, ho, hn]
    · rw [ho, hn] at hne; simp at hne
  · intro c hc o n v w ho hn
    simp [compare_records, colChanged, hc, ho, hn]
  · intro o n ho hn
    have hmem : TCol.model_name ∉ numericTrackedCols := by decide
    simp [compare_records, colChanged, hmem, strVal, ho, hn, pyStr]
  · exact fun s => Iff.rfl

theorem C8_comparator_null_semantics_witness :
    compare_records { exTracked with price := none } { exTracked with price := none }
      [TCol.price] = false ∧
    compare_records { exTracked with price := none } exTracked [TCol.price] = true ∧
    (compare_records exTracked { exTracked with price := some 52000 } [TCol.price] = true ↔
      (50000 : Int) ≠ 52000) ∧
    compare_records { exTracked with model_name := SVal.missing }
      { exTracked with model_name := SVal.val "" } [TCol.model_name] = true ∧
    (pyStr (SVal.val "x") = pyStr SVal.missing ↔ "x" = "nan") :=
  ⟨C8_comparator_null_semantics.1 TCol.price (by decide) _ _ (by decide) (by decide),
   C8_comparator_null_semantics.2.1 TCol.price (by decide) _ _ (by decide),
   C8_comparator_null_semantics.2.2.1 TCol.price (by decide) _ _ 50000 52000
     (by decide) (by decide),
   C8_comparator_null_semantics.2.2.2.1 _ _ (by decide) (by decide),
   C8_comparator_null_semantics.2.2.2.2.2 "x"⟩

/-- **C8, counterexample to the claim as stated**: the stringified missing
value is the sentinel `"nan"`, which is *not* distinct from every real
value — a record whose `model_name` is missing and a record whose
`model_name` is the real string `"nan"` differ, yet `compare_records` over
the full tracked-column set returns `false` (no change detected). -/
theorem C8_counterexample :
    ({ exTracked with model_name := SVal.missing } : Tracked).model_name ≠
      ({ exTracked with model_name := SVal.val "nan" } : Tracked).model_name ∧
    pyStr SVal.missing = pyStr (SVal.val "nan") ∧
    compare_records { exTracked with model_name := SVal.missing }
      { exTracked with model_name := SVal.val "nan" } TRACKING_COLUMNS = false := by
  decide

/-! ## De-duplication (`drop_duplicates(keep='last')`) lemmas -/

theorem dedupKeepLast_sublist {α κ : Type} [DecidableEq κ] (key : α → κ) (l : List α) :
    (dedupKeepLast key l).Sublist l := by
  induction l with
  | nil => exact List.Sublist.refl []
  | cons a rest ih =>
    unfold dedupKeepLast
    by_cases h : rest.any (fun b => decide (key b = key a))
    · rw [if_pos h]
      exact ih.cons a
    · rw [if_neg h]
      exact ih.cons₂ a

theorem dedupKeepLast_filter {α κ : Type} [DecidableEq κ] (key : α → κ) (l : List α)
    (k0 : κ) :
    (dedupKeepLast key l).filter (fun a => decide (key a = k0)) =
      ((l.filter (fun a => decide (key a = k0))).getLast?).toList := by
  induction l with
  | nil => rfl
  | cons a rest ih =>
    unfold dedupKeepLast
    by_cases hdup : rest.any (fun b => decide (key b = key a))
    · rw [if_pos hdup, ih]
      by_cases hk : key a = k0
      · obtain ⟨b, hb, hkb⟩ := List.any_eq_true.mp hdup
        have hkb' : key b = k0 := by rw [of_decide_eq_true hkb, hk]
        have hne : rest.filter (fun x => decide (key x = k0)) ≠ [] := by
          intro hnil
          have := List.filter_eq_nil_iff.mp hnil b hb
          simp [hkb'] at this
        rw [List.filter_cons_of_pos (by simp [hk])]
        rcases hxs : rest.filter (fun x => decide (key x = k0)) with _ | ⟨x, xs⟩
        · exact absurd hxs hne
        · rw [List.getLast?_cons_cons]
      · rw [List.filter_cons_of_neg (by simp [hk])]
    · rw [if_neg hdup]
      by_cases hk : key a = k0
      · have hrest : rest.filter (fun x => decide (key x = k0)) = [] := by
          rw [List.filter_eq_nil_iff]
          intro b hb hbk
          exact hdup (List.any_eq_true.mpr
            ⟨b, hb, by simp [of_decide_eq_true hbk, hk]⟩)
        have hdfilter : (dedupKeepLast key rest).filter (fun x => decide (key x = k0)) =
            [] := by
          rw [ih, hrest]
          rfl
        rw [List.filter_cons_of_pos (by simp [hk]), hdfilter,
          List.filter_cons_of_pos (by simp [hk]), hrest]
        rfl
      · rw [List.filter_cons_of_neg (by simp [hk]), ih,
          List.filter_cons_of_neg (by simp [hk])]

theorem dedupKeepLast_countP_le_one {α κ : Type} [DecidableEq κ] (key : α → κ)
    (l : List α) (k0 : κ) :
    (dedupKeepLast key l).countP (fun a => decide (key a = k0)) ≤ 1 := by
  rw [List.countP_eq_length_filter, dedupKeepLast_filter]
  cases (l.filter (fun a => decide (key a = k0))).getLast? <;> simp

theorem getLast?_toList_length_eq_one {α : Type} {l : List α} (h : l ≠ []) :
    (l.getLast?).toList.length = 1 := by
  have : l.getLast?.isSome := List.getLast?_isSome.mpr h
  rcases hc : l.getLast? with _ | a
  · rw [hc] at this; cases this
  · rfl


/-! ## Claim C9 -/

theorem score_record_car_id {r : ScoredCarRow} {d : Nat} {rec : ScoreRow}
    (h : score_record_for_car r d = some rec) : rec.car_id = r.car_id := by
  unfold score_record_for_car at h
  split at h
  · cases h
  · split at h
    · injection h with h2
      rw [← h2]
    · cases h

theorem new_scores_filter_key (L : List ScoredCarRow) (d : Nat) (k : Nat) :
    (new_scores_records L d).filter (fun r => decide (r.car_id = some k)) =
      (L.filter (fun r => r.is_latest && decide (r.car_id = some k))).filterMap
        (fun r => score_record_for_car r d) := by
  unfold new_scores_records
  induction L with
  | nil => rfl
  | cons a rest ih =>
    rcases hl : a.is_latest with _ | _
    · rw [List.filter_cons_of_neg (by simp [hl]), List.filter_cons_of_neg (by simp [hl])]
      exact ih
    · rw [List.filter_cons_of_pos (by simp [hl])]
      rcases hf : score_record_for_car a d with _ | rec
      · simp only [List.filterMap_cons, hf]
        by_cases hk : a.car_id = some k
        · rw [List.filter_cons_of_pos (by simp [hl, hk])]
          simp only [List.filterMap_cons, hf]
          exact ih
        · rw [List.filter_cons_of_neg (by simp [hl, hk])]
          exact ih
      · simp only [List.filterMap_cons, hf]
        have hrk : rec.car_id = a.car_id := score_record_car_id hf
        by_cases hk : a.car_id = some k
        · rw [List.filter_cons_of_pos (by simp [hrk, hk]),
            List.filter_cons_of_pos (by simp [hl, hk])]
          simp only [List.filterMap_cons, hf]
          rw [ih]
        · rw [List.filter_cons_of_neg (by simp [hrk, hk]),
            List.filter_cons_of_neg (by simp [hl, hk]), ih]

/-- **C9** (amended).  For every entity of the `is_latest = true` partition
with a non-missing key and *at least one non-null score*, the scores merge
appends exactly one new metric row for that entity (`mkScoreRow`): every
score field is stored verbatim — a null score is stored as an explicit null,
it neither skips the entity nor fails — the row is stamped with the entity's
validity window (missing stamps default to the run date), and the appended
batch is de-duplicated by `car_id` keeping the *last* occurrence: for every
key, the batch's rows for that key are exactly the last row of that key in
the pre-dedup batch `new_scores_records` (the `getLast?` characterisation,
pinning `drop_duplicates(keep='last')`).  (As stated the claim fails: an
entity whose five scores are *all* null is skipped entirely — no metric row
is appended for it; see the counterexample.) -/
theorem C9_scores_one_row_per_entity (car_history_df : List ScoredCarRow)
    (scores_history_df : List ScoreRow) (d : Nat) (c : ScoredCarRow) (k : Nat)
    (hone : car_history_df.filter (fun r => r.is_latest && decide (r.car_id = some k)) = [c])
    (hscore : (c.value_efficiency_score.isSome || c.age_usage_score.isSome ||
      c.performance_range_score.isSome || c.equipment_score.isSome ||
      c.final_score.isSome) = true) :
    ((merge_scores_history car_history_df scores_history_df d).drop
        scores_history_df.length).filter (fun r => decide (r.car_id = some k)) =
      [mkScoreRow c d] ∧
    (∀ k0 : Option Nat,
      ((merge_scores_history car_history_df scores_history_df d).drop
          scores_history_df.length).countP (fun r => decide (r.car_id = k0)) ≤ 1) ∧
    ∀ k0 : Option Nat,
      ((merge_scores_history car_history_df scores_history_df d).drop
          scores_history_df.length).filter (fun r => decide (r.car_id = k0)) =
        ((new_scores_records car_history_df d).filter
          (fun r => decide (r.car_id = k0))).getLast?.toList := by
  have hcmem : c ∈ car_history_df.filter
      (fun r => r.is_latest && decide (r.car_id = some k)) := by
    rw [hone]
    exact List.mem_cons_self c []
  have hck : c.car_id = some k := by
    have := (List.mem_filter.mp hcmem).2
    simp only [Bool.and_eq_true, decide_eq_true_eq] at this
    exact this.2
  have hnotnone : ¬(c.car_id.isNone = true) := by
    rw [hck]
    simp
  have hrec : score_record_for_car c d = some (mkScoreRow c d) := by
    unfold score_record_for_car mkScoreRow
    rw [if_neg hnotnone, if_pos (by simp only [hscore])]
  have hfk : (new_scores_records car_history_df d).filter
      (fun r => decide (r.car_id = some k)) = [mkScoreRow c d] := by
    rw [new_scores_filter_key, hone]
    simp only [List.filterMap_cons, hrec]
    rfl
  have hne : (new_scores_records car_history_df d).isEmpty = false := by
    rcases hn : new_scores_records car_history_df d with _ | _
    · rw [hn] at hfk
      cases hfk
    · rfl
  have hmerge : merge_scores_history car_history_df scores_history_df d =
      scores_history_df ++
        dedupKeepLast (fun r => r.car_id) (new_scores_records car_history_df d) := by
    unfold merge_scores_history
    rw [if_neg (by simp [hne])]
  have hdrop : (merge_scores_history car_history_df scores_history_df d).drop
      scores_history_df.length =
      dedupKeepLast (fun r => r.car_id) (new_scores_records car_history_df d) := by
    rw [hmerge, List.drop_left]
  refine ⟨?_, ?_, ?_⟩
  · rw [hdrop, dedupKeepLast_filter, hfk]
    rfl
  · intro k0
    rw [hdrop]
    exact dedupKeepLast_countP_le_one _ _ k0
  · intro k0
    rw [hdrop]
    exact dedupKeepLast_filter _ _ k0

theorem C9_scores_one_row_per_entity_witness :
    ((merge_scores_history
          [{ exScoredNull with car_id := some 2, final_score := some 3 },
            { exScoredNull with car_id := some 2, final_score := some 9 },
            { exScoredNull with final_score := some 7 }] [] 5).drop
        ([] : List ScoreRow).length).filter (fun r => decide (r.car_id = some 1)) =
      [mkScoreRow { exScoredNull with final_score := some 7 } 5] ∧
    (∀ k0 : Option Nat,
      ((merge_scores_history
            [{ exScoredNull with car_id := some 2, final_score := some 3 },
              { exScoredNull with car_id := some 2, final_score := some 9 },
              { exScoredNull with final_score := some 7 }] [] 5).drop
          ([] : List ScoreRow).length).countP (fun r => decide (r.car_id = k0)) ≤ 1) ∧
    ∀ k0 : Option Nat,
      ((merge_scores_history
            [{ exScoredNull with car_id := some 2, final_score := some 3 },
              { exScoredNull with car_id := some 2, final_score := some 9 },
              { exScoredNull with final_score := some 7 }] [] 5).drop
          ([] : List ScoreRow).length).filter (fun r => decide (r.car_id = k0)) =
        ((new_scores_records
              [{ exScoredNull with car_id := some 2, final_score := some 3 },
                { exScoredNull with car_id := some 2, final_score := some 9 },
                { exScoredNull with final_score := some 7 }] 5).filter
            (fun r => decide (r.car_id = k0))).getLast?.toList :=
  C9_scores_one_row_per_entity
    [{ exScoredNull with car_id := some 2, final_score := some 3 },
      { exScoredNull with car_id := some 2, final_score := some 9 },
      { exScoredNull with final_score := some 7 }] [] 5
    { exScoredNull with final_score := some 7 } 1 (by decide) (by decide)

/-- **C9, counterexample to the claim as stated**: an entity of the latest
partition (non-missing key) whose five scores are all null gets *no* metric
row — the merge returns the prior scores history unchanged (here empty)
instead of appending a row with explicit null markers. -/
theorem C9_counterexample :
    exScoredNull.is_latest = true ∧ exScoredNull.car_id = some 1 ∧
    merge_scores_history [exScoredNull] [] 5 = [] := by
  decide

/-! ## Claim C10 -/

theorem extractNames_seen_mono (cid : Option Nat) (vf : Nat) (vt : Option Nat) (il : Bool)
    (sd : Nat) (cat : String) :
    ∀ (names : List String) (seen : List (String × String)) (p : String × String),
      p ∈ seen → p ∈ (extractNames cid vf vt il sd cat names seen).1 := by
  intro names
  induction names with
  | nil =>
    intro seen p hp
    exact hp
  | cons n ns ih =>
    intro seen p hp
    rcases hc : seen.contains (cat, n) with _ | _
    · simp only [extractNames, hc, Bool.false_eq_true, if_false]
      exact ih ((cat, n) :: seen) p (List.mem_cons_of_mem _ hp)
    · simp only [extractNames, hc, if_true]
      exact ih seen p hp

theorem extractNames_seen_complete (cid : Option Nat) (vf : Nat) (vt : Option Nat)
    (il : Bool) (sd : Nat) (cat : String) :
    ∀ (names : List String) (seen : List (String × String)) (nm : String), nm ∈ names →
      (cat, nm) ∈ (extractNames cid vf vt il sd cat names seen).1 := by
  intro names
  induction names with
  | nil =>
    intro seen nm h
    exact absurd h (List.not_mem_nil nm)
  | cons n ns ih =>
    intro seen nm h
    rcases List.mem_cons.mp h with rfl | hns
    · rcases hc : seen.contains (cat, nm) with _ | _
      · simp only [extractNames, hc, Bool.false_eq_true, if_false]
        exact extractNames_seen_mono cid vf vt il sd cat ns ((cat, nm) :: seen) (cat, nm)
          (List.mem_cons_self _ _)
      · simp only [extractNames, hc, if_true]
        exact extractNames_seen_mono cid vf vt il sd cat ns seen (cat, nm)
          (List.mem_of_elem_eq_true hc)
    · rcases hc : seen.contains (cat, n) with _ | _
      · simp only [extractNames, hc, Bool.false_eq_true, if_false]
        exact ih ((cat, n) :: seen) nm hns
      · simp only [extractNames, hc, if_true]
        exact ih seen nm hns

theorem extractNames_emitted (cid : Option Nat) (vf : Nat) (vt : Option Nat) (il : Bool)
    (sd : Nat) (cat : String) :
    ∀ (names : List String) (seen : List (String × String)) (p : String × String),
      p ∈ (extractNames cid vf vt il sd cat names seen).1 →
      p ∈ seen ∨ ∃ row ∈ (extractNames cid vf vt il sd cat names seen).2,
        row.car_id = cid ∧ row.category = p.1 ∧ row.equipment_name = p.2 := by
  intro names
  induction names with
  | nil =>
    intro seen p hp
    exact Or.inl hp
  | cons n ns ih =>
    intro seen p hp
    rcases hc : seen.contains (cat, n) with _ | _
    · simp only [extractNames, hc, Bool.false_eq_true, if_false] at hp ⊢
      rcases ih ((cat, n) :: seen) p hp with hseen | ⟨row, hrow, hprops⟩
      · rcases List.mem_cons.mp hseen with rfl | hseen'
        · exact Or.inr ⟨_, List.mem_cons_self _ _, rfl, rfl, rfl⟩
        · exact Or.inl hseen'
      · exact Or.inr ⟨row, List.mem_cons_of_mem _ hrow, hprops⟩
    · simp only [extractNames, hc, if_true] at hp ⊢
      exact ih seen p hp

theorem extractCats_emits (cid : Option Nat) (vf : Nat) (vt : Option Nat) (il : Bool)
    (sd : Nat) :
    ∀ (ed : EquipJson) (seen : List (String × String)) (cat nm : String)
      (names : List String), (cat, names) ∈ ed → nm ∈ names →
      (cat, nm) ∈ seen ∨ ∃ row ∈ extractCats cid vf vt il sd ed seen,
        row.car_id = cid ∧ row.category = cat ∧ row.equipment_name = nm := by
  intro ed
  induction ed with
  | nil =>
    intro seen cat nm names h
    exact absurd h (List.not_mem_nil _)
  | cons e rest ih =>
    intro seen cat nm names hmem hnm
    obtain ⟨c1, ns1⟩ := e
    simp only [extractCats]
    rcases List.mem_cons.mp hmem with heq | hrest
    · obtain ⟨hc1, hns1⟩ := Prod.mk.injEq .. ▸ heq
      subst hc1
      subst hns1
      have hin := extractNames_seen_complete cid vf vt il sd cat names seen nm hnm
      rcases extractNames_emitted cid vf vt il sd cat names seen (cat, nm) hin with
        hseen | ⟨row, hrow, hprops⟩
      · exact Or.inl hseen
      · exact Or.inr ⟨row, List.mem_append_left _ hrow, hprops⟩
    · rcases ih (extractNames cid vf vt il sd c1 ns1 seen).1 cat nm names hrest hnm with
        hseen | ⟨row, hrow, hprops⟩
      · rcases extractNames_emitted cid vf vt il sd c1 ns1 seen (cat, nm) hseen with
          hseen' | ⟨row, hrow, hprops⟩
        · exact Or.inl hseen'
        · exact Or.inr ⟨row, List.mem_append_left _ hrow, hprops⟩
      · exact Or.inr ⟨row, List.mem_append_right _ hrow, hprops⟩

theorem extract_equipment_mem (cid : Option Nat) (ed : EquipJson) (vf : Nat)
    (vt : Option Nat) (il : Bool) (sd : Nat) (cat nm : String) (names : List String)
    (hcat : (cat, names) ∈ ed) (hnm : nm ∈ names) :
    ∃ row ∈ extract_equipment_from_json cid (some ed) vf vt il sd,
      row.car_id = cid ∧ row.category = cat ∧ row.equipment_name = nm := by
  unfold extract_equipment_from_json
  rcases extractCats_emits cid vf vt il sd ed [] cat nm names hcat hnm with h | h
  · exact absurd h (List.not_mem_nil _)
  · exact h

theorem gatherEquip_mem {d : Nat} {L : List CarRow} {row : EquipRow} :
    row ∈ gatherEquip d L ↔ ∃ c ∈ L, row ∈ equip_rows_for_car c d := by
  induction L with
  | nil => simp [gatherEquip]
  | cons c cs ih => simp [gatherEquip, ih]

/-- **C10** (confirmed).  A latest-partition entity whose equipments dict
lists the same `(category, name)` pair more than once produces exactly one
attribute row for that `(car_id, category, equipment_name)` triple in the
new batch, and the whole new batch is de-duplicated by that triple keeping
the last-seen occurrence (`drop_duplicates(keep='last')`). -/
theorem C10_equipment_dedup (car_history_df : List CarRow)
    (equipment_history_df : List EquipRow) (d : Nat) (c : CarRow) (k : Nat)
    (ed : EquipJson) (cat nm : String) (names : List String)
    (hm : c ∈ car_history_df) (hl : c.is_latest = true) (hk : c.car_id = some k)
    (hed : c.equipments = some ed) (hcat : (cat, names) ∈ ed) (hnm : nm ∈ names) :
    ((merge_equipment_history car_history_df equipment_history_df d).drop
        equipment_history_df.length).countP
      (fun r => decide (equipKey r = (some k, cat, nm))) = 1 ∧
    ∀ t : Option Nat × String × String,
      ((merge_equipment_history car_history_df equipment_history_df d).drop
          equipment_history_df.length).countP (fun r => decide (equipKey r = t)) ≤ 1 ∧
      ((merge_equipment_history car_history_df equipment_history_df d).drop
          equipment_history_df.length).filter (fun r => decide (equipKey r = t)) =
        ((new_equipment_records car_history_df d).filter
          (fun r => decide (equipKey r = t))).getLast?.toList := by
  obtain ⟨row, hrowmem, hrid, hrcat, hrnm⟩ := extract_equipment_mem c.car_id ed
    (c.valid_from.getD d) c.valid_to c.is_latest (c.scrape_date.getD d) cat nm names
    hcat hnm
  have hrow2 : row ∈ equip_rows_for_car c d := by
    unfold equip_rows_for_car
    rw [if_neg (by simp [hk]), hed]
    exact hrowmem
  have hrowrecs : row ∈ new_equipment_records car_history_df d := by
    unfold new_equipment_records
    exact gatherEquip_mem.mpr ⟨c, List.mem_filter.mpr ⟨hm, hl⟩, hrow2⟩
  have hkey : equipKey row = (some k, cat, nm) := by
    unfold equipKey
    rw [hrid, hk, hrcat, hrnm]
  have hne : (new_equipment_records car_history_df d).isEmpty = false := by
    rcases hn : new_equipment_records car_history_df d with _ | _
    · rw [hn] at hrowrecs
      exact absurd hrowrecs (List.not_mem_nil _)
    · rfl
  have hdrop : (merge_equipment_history car_history_df equipment_history_df d).drop
      equipment_history_df.length =
      dedupKeepLast equipKey (new_equipment_records car_history_df d) := by
    unfold merge_equipment_history
    rw [if_neg (by simp [hne]), List.drop_left]
  constructor
  · rw [hdrop, List.countP_eq_length_filter, dedupKeepLast_filter]
    apply getLast?_toList_length_eq_one
    intro hnil
    have := List.filter_eq_nil_iff.mp hnil row hrowrecs
    simp [hkey] at this
  · intro t
    constructor
    · rw [hdrop]
      exact dedupKeepLast_countP_le_one _ _ t
    · rw [hdrop]
      exact dedupKeepLast_filter _ _ t

theorem C10_equipment_dedup_witness :
    ((merge_equipment_history [exEquipCar] [] 5).drop
        ([] : List EquipRow).length).countP
      (fun r => decide (equipKey r = (some 1, "Comfort", "Seat heating"))) = 1 ∧
    ∀ t : Option Nat × String × String,
      ((merge_equipment_history [exEquipCar] [] 5).drop
          ([] : List EquipRow).length).countP (fun r => decide (equipKey r = t)) ≤ 1 ∧
      ((merge_equipment_history [exEquipCar] [] 5).drop
          ([] : List EquipRow).length).filter (fun r => decide (equipKey r = t)) =
        ((new_equipment_records [exEquipCar] 5).filter
          (fun r => decide (equipKey r = t))).getLast?.toList :=
  C10_equipment_dedup [exEquipCar] [] 5 exEquipCar 1 exEquipJson "Comfort" "Seat heating"
    ["Seat heating", "Seat heating"] (by decide) (by decide) (by decide) (by decide)
    (by decide) (by decide)
